import Mathlib

/-!
# Equalizer: execution units, the server node and the AGL event handler

A shallow embedding of `src/lib/base/thread.cpp` (the build without
`EQ_WIN32_SDP_JOIN_WAR`), of the members and inline methods of
`src/server/node.h`, and of the mouse and window handlers of
`src/lib/client/aglEventHandler.cpp`.

The thread code is embedded as explicit state passing over a `World`: the
single `Thread` object under study, the process-wide listener vector, the
per-thread value of the cleanup key, and a chronological trace of the
observable actions (state assignments, pthread calls, listener callbacks,
failed checks).  Calls that do not return to their caller (`pthread_exit`, a
fatal check) are made explicit in an `Outcome`.

Each operation is the sequential execution of its body by one calling thread.
The one synchronisation of the source, `_syncChild`, is an explicit step: the
child entry routine is cut at `_syncChild.unset()`, and `start()` runs the first
half where it waits in `_syncChild.set()`.  The spin lock around the listener
vector and the log output have no counterpart.  The pthread library and the
user code (`init()`, `run()`) are parameters.

The node is a record of the members of `node.h`; the methods that `node.h`
only declares are marked as modelled from the specification.  The event
handlers are functions of what the window system reports; machine integers are
integers with explicit wrapping, floating-point coordinates are rationals.
-/

namespace eqBase

/-- The lifecycle states of `Thread` (`Thread::STATE_*`). -/
inductive State where
  | STATE_STOPPED
  | STATE_STARTING
  | STATE_RUNNING
  | STATE_STOPPING
  deriving DecidableEq, Repr

/-- A `pthread_t`, compared with `pthread_equal`. -/
abbrev PthreadT := Nat

/-- The identity of a registered `ExecutionListener*`. -/
abbrev Listener := Nat

/-- The places in `thread.cpp` that carry a check (`EQASSERTINFO`,
`EQUNREACHABLE`). -/
inductive Site where
  | inRunChild
  | inExit
  | inCancel
  deriving DecidableEq, Repr

/-- The observable actions of the code, in the order they happen. -/
inductive Event where
  | stateWrite (old new : State)
  | callInit
  | callRun
  | pthreadCreate (error : Nat)
  | pthreadExit (self : PthreadT) (retVal : Nat)
  | pthreadCancel (target : PthreadT)
  | pthreadCanceled (self : PthreadT)
  | pthreadJoin (target : PthreadT) (error : Nat)
  | pthreadSetspecific (self : PthreadT) (nonNull : Bool)
  | syncChildSet
  | syncChildUnset
  | callNotifyStopping (self : PthreadT)
  | notifyExecutionStarted (l : Listener)
  | notifyExecutionStopping (l : Listener)
  | assertFailed (site : Site)
  | unreachable (site : Site)
  deriving DecidableEq, Repr

/-- The members of `Thread` the code reads and writes: `_state`,
`_threadID`, `_data->threadID` and the lock `_syncChild` (true = held). -/
structure Thread where
  _state : State
  _threadID : PthreadT
  dataThreadID : PthreadT
  _syncChild : Bool
  deriving DecidableEq, Repr

/-- The unit under study together with the static data of `thread.cpp`:
`Thread::_listeners`, the thread-specific value of `_cleanupKey` (true =
holds the `this` pointer, false = NULL) and the trace of actions. -/
structure World where
  thread : Thread
  _listeners : List Listener
  _cleanupKey : PthreadT → Bool
  trace : List Event

/-- How a call ends for the calling thread. -/
inductive Outcome (α : Type) where
  | returned (a : α)
  | threadExited (retVal : Nat)
  | threadCanceled
  | aborted
  | blocked
  deriving DecidableEq, Repr

/-- The user-supplied `run()`: it returns a result, calls `exit(result)`
itself, or is cancelled at a cancellation point inside it. -/
inductive RunBehaviour where
  | returns (result : Nat)
  | exits (result : Nat)
  | canceled
  deriving DecidableEq, Repr

/-- The virtual methods of a concrete unit: the result of `init()` and the
behaviour of `run()`. -/
structure UserCode where
  init : Bool
  run : RunBehaviour
  deriving DecidableEq, Repr

/-- What the pthread library answers: the error code of the n-th
`pthread_create` attempt, the id of the thread it creates, and the error
code and exit value reported by `pthread_join`. -/
structure Env where
  createError : Nat → Nat
  childTid : PthreadT
  joinError : Nat
  joinValue : Nat

/-- The `errno.h` value of `EAGAIN`. -/
def EAGAIN : Nat := 11

/-- Append one action to the trace. -/
def emit (e : Event) (w : World) : World :=
  { w with trace := w.trace ++ [e] }

/-- The assignment `_state = s`. -/
def setState (s : State) (w : World) : World :=
  emit (Event.stateWrite w.thread._state s) { w with thread := { w.thread with _state := s } }

/-- The call `pthread_setspecific( _cleanupKey, value )` made by thread `self`. -/
def pthread_setspecific (self : PthreadT) (nonNull : Bool) (w : World) : World :=
  emit (Event.pthreadSetspecific self nonNull)
    { w with _cleanupKey := fun t => if t = self then nonNull else w._cleanupKey t }

/-- Modelled from the spec: `debug.h`, which defines `EQASSERTINFO`, is not
among the sources.  The spec says a violated precondition is made "loudly
detectable (assertion/fatal in debug builds)", so a failed check is recorded
and stops the program exactly when the build makes checks fatal
(`abortOnCheck`). -/
def EQASSERTINFO (abortOnCheck : Bool) (cond : Bool) (site : Site) (w : World) :
    Outcome Unit × World :=
  if cond then (Outcome.returned (), w)
  else if abortOnCheck then (Outcome.aborted, emit (Event.assertFailed site) w)
  else (Outcome.returned (), emit (Event.assertFailed site) w)

/-- Modelled from the spec: `debug.h`, which defines `EQUNREACHABLE`, is not
among the sources.  Reaching the mark is recorded and, like a failed
assertion, stops the program exactly when the build makes checks fatal. -/
def EQUNREACHABLE (abortOnCheck : Bool) (site : Site) (w : World) : Outcome Unit × World :=
  if abortOnCheck then (Outcome.aborted, emit (Event.unreachable site) w)
  else (Outcome.returned (), emit (Event.unreachable site) w)

namespace Thread

/-- The constructor `Thread::Thread()`: state `STATE_STOPPED`,
`_data->threadID` zeroed, `_syncChild` set.  `_threadID` is not initialised
by the constructor, so its value is a parameter. -/
def new (garbageThreadID : PthreadT) : Thread :=
  { _state := State.STATE_STOPPED, _threadID := garbageThreadID, dataThreadID := 0,
    _syncChild := true }

/-- `Thread::isCurrent`: `pthread_equal( pthread_self(), _threadID )`. -/
def isCurrent (self : PthreadT) (w : World) : Bool :=
  decide (self = w.thread._threadID)

/-- `Thread::addListener`: `_listeners.push_back( listener )`. -/
def addListener (listener : Listener) (w : World) : World :=
  { w with _listeners := w._listeners ++ [listener] }

/-- `Thread::_notifyStarted`: call every listener of `_listeners`, front to
back. -/
def _notifyStarted (w : World) : World :=
  w._listeners.foldl (fun acc l => emit (Event.notifyExecutionStarted l) acc) w

/-- `Thread::_notifyStopping`, the destructor of `_cleanupKey`: clear the key
of the calling thread, then call every listener of `_listeners`, front to
back. -/
def _notifyStopping (self : PthreadT) (w : World) : World :=
  let w1 := emit (Event.callNotifyStopping self) w
  let w2 := pthread_setspecific self false w1
  w2._listeners.foldl (fun acc l => emit (Event.notifyExecutionStopping l) acc) w2

end Thread

/-- The pthread library at the end of thread `self`: while the thread holds a
non-NULL value for `_cleanupKey`, call the key destructor registered by
`pthread_key_create( &_cleanupKey, Thread::_notifyStopping )`, for at most
`iterations` rounds (`PTHREAD_DESTRUCTOR_ITERATIONS`).  POSIX sets the value to
NULL before the call; `clearsFirst = false` covers a library that leaves that
to the destructor. -/
def runKeyDestructors (clearsFirst : Bool) : Nat → PthreadT → World → World
  | 0, _, w => w
  | n + 1, self, w =>
    if w._cleanupKey self then
      let w1 : World :=
        if clearsFirst then
          { w with _cleanupKey := fun t => if t = self then false else w._cleanupKey t }
        else w
      runKeyDestructors clearsFirst n self (Thread._notifyStopping self w1)
    else w

/-- The parameters of the pthread library that the teardown depends on. -/
structure PthreadLib where
  clearsFirst : Bool
  iterations : Nat

/-- The call `pthread_exit( retVal )` by thread `self`: the key destructors
run and the thread ends; the call does not return. -/
def pthread_exit (lib : PthreadLib) (self : PthreadT) (retVal : Nat) (w : World) :
    Outcome Unit × World :=
  (Outcome.threadExited retVal,
    runKeyDestructors lib.clearsFirst lib.iterations self (emit (Event.pthreadExit self retVal) w))

/-- A pending cancellation request acted upon by thread `self` at a
cancellation point: the key destructors run and the thread ends. -/
def actOnCancel (lib : PthreadLib) (self : PthreadT) (w : World) : Outcome Unit × World :=
  (Outcome.threadCanceled,
    runKeyDestructors lib.clearsFirst lib.iterations self (emit (Event.pthreadCanceled self) w))

namespace Thread

/-- `Thread::exit( retVal )` called by thread `self`. -/
def exit (abortOnCheck : Bool) (lib : PthreadLib) (self : PthreadT) (retVal : Nat) (w : World) :
    Outcome Unit × World :=
  match EQASSERTINFO abortOnCheck (isCurrent self w) Site.inExit w with
  | (Outcome.returned _, w1) =>
    let w2 := setState State.STATE_STOPPING w1
    match pthread_exit lib self retVal w2 with
    | (Outcome.returned _, w3) => EQUNREACHABLE abortOnCheck Site.inExit w3
    | r => r
  | r => r

/-- `Thread::cancel()` called by thread `self`.  `pthread_cancel` only files
the request and returns to the caller. -/
def cancel (abortOnCheck : Bool) (self : PthreadT) (w : World) : Outcome Unit × World :=
  match EQASSERTINFO abortOnCheck (!isCurrent self w) Site.inCancel w with
  | (Outcome.returned _, w1) =>
    let w2 := setState State.STATE_STOPPING w1
    let w3 := emit (Event.pthreadCancel w2.thread._threadID) w2
    EQUNREACHABLE abortOnCheck Site.inCancel w3
  | r => r

/-- `Thread::join( retVal )` called by thread `self` (the build without
`EQ_WIN32_SDP_JOIN_WAR`).  `wantResult` says whether the `retVal` pointer is
non-NULL; the second component of the answer is the value stored through it,
if any. -/
def join (env : Env) (self : PthreadT) (wantResult : Bool) (w : World) :
    (Bool × Option Nat) × World :=
  if w.thread._state = State.STATE_STOPPED then ((false, none), w)
  else if isCurrent self w then ((false, none), w)
  else
    let w1 := emit (Event.pthreadJoin w.thread._threadID env.joinError) w
    if env.joinError ≠ 0 then ((false, none), w1)
    else
      let w2 := setState State.STATE_STOPPED w1
      ((true, if wantResult then some env.joinValue else none), w2)

/-- The first half of `Thread::_runChild` on the new thread `self`, up to and
including `_syncChild.unset()`; the answer is the result of `init()`. -/
def _runChildEntry (user : UserCode) (self : PthreadT) (w : World) : Bool × World :=
  let w1 : World := { w with thread := { w.thread with _threadID := self } }
  let w2 := emit Event.callInit w1
  if !user.init then
    let w3 := setState State.STATE_STOPPED w2
    let w4 := emit Event.syncChildUnset { w3 with thread := { w3.thread with _syncChild := false } }
    (false, w4)
  else
    let w3 := setState State.STATE_RUNNING w2
    let w4 := pthread_setspecific self true w3
    let w5 := _notifyStarted w4
    let w6 := emit Event.syncChildUnset { w5 with thread := { w5.thread with _syncChild := false } }
    (true, w6)

/-- The second half of `Thread::_runChild`, after `_syncChild.unset()`:
`pthread_exit( NULL )` when `init()` failed, else `run()` followed by
`this->exit( result )` and `EQUNREACHABLE`. -/
def _runChildBody (abortOnCheck : Bool) (lib : PthreadLib) (user : UserCode) (self : PthreadT)
    (initOk : Bool) (w : World) : Outcome Unit × World :=
  if !initOk then pthread_exit lib self 0 w
  else
    let w1 := emit Event.callRun w
    match user.run with
    | RunBehaviour.canceled => actOnCancel lib self w1
    | RunBehaviour.exits result => exit abortOnCheck lib self result w1
    | RunBehaviour.returns result =>
      match exit abortOnCheck lib self result w1 with
      | (Outcome.returned _, w2) => EQUNREACHABLE abortOnCheck Site.inRunChild w2
      | r => r

/-- `Thread::_runChild` on the new thread `self`. -/
def _runChild (abortOnCheck : Bool) (lib : PthreadLib) (user : UserCode) (self : PthreadT)
    (w : World) : Outcome Unit × World :=
  let r := _runChildEntry user self w
  _runChildBody abortOnCheck lib user self r.1 r.2

/-- How the retry loop of `Thread::start` is left. -/
inductive LoopExit where
  | created
  | returnedFalse
  | conditionFalse
  deriving DecidableEq, Repr

/-- The loop `while( nTries-- )` of `Thread::start`; the first argument is
the value of `nTries` when the condition is tested, `attempt` counts the calls
of `pthread_create` made so far. -/
def createLoop (env : Env) : Nat → Nat → World → LoopExit × World
  | 0, _, w => (LoopExit.conditionFalse, w)
  | n + 1, attempt, w =>
    let error := env.createError attempt
    let w1 := emit (Event.pthreadCreate error) w
    if error = 0 then
      (LoopExit.created, { w1 with thread := { w1.thread with dataThreadID := env.childTid } })
    else if error ≠ EAGAIN ∨ n = 0 then (LoopExit.returnedFalse, w1)
    else createLoop env n (attempt + 1) w1

/-- The call `_syncChild.set()`: take the lock, or wait for ever when it is
held and nobody is left to release it. -/
def syncChildSet (w : World) : Option World :=
  if w.thread._syncChild then none
  else some (emit Event.syncChildSet { w with thread := { w.thread with _syncChild := true } })

/-- `Thread::start()`.  A created thread runs the first half of `_runChild`
while the caller waits in `_syncChild.set()`.  The caller's last assignment
follows at once, before the second half of `_runChild`; the source does not
order the two, and `startHead`, `startTail` below are the same `start()` cut at
the wait, for the orders in which the child goes on first. -/
def start (env : Env) (user : UserCode) (w : World) : Outcome Bool × World :=
  if w.thread._state ≠ State.STATE_STOPPED then (Outcome.returned false, w)
  else
    let w1 := setState State.STATE_STARTING w
    match createLoop env 10 0 w1 with
    | (LoopExit.returnedFalse, w2) => (Outcome.returned false, w2)
    | (LoopExit.created, w2) =>
      let w3 := (_runChildEntry user env.childTid w2).2
      match syncChildSet w3 with
      | none => (Outcome.blocked, w3)
      | some w4 => (Outcome.returned true, setState State.STATE_RUNNING w4)
    | (LoopExit.conditionFalse, w2) =>
      match syncChildSet w2 with
      | none => (Outcome.blocked, w2)
      | some w3 => (Outcome.returned true, setState State.STATE_RUNNING w3)

/-- `Thread::start()` up to its wait in `_syncChild.set()` (thread.cpp:130-156):
the test for Stopped, the assignment of Starting and the retry loop.  The first
component says whether the wait is reached; if not, `start()` has returned
false. -/
def startHead (env : Env) (w : World) : Bool × World :=
  if w.thread._state ≠ State.STATE_STOPPED then (false, w)
  else
    match createLoop env 10 0 (setState State.STATE_STARTING w) with
    | (LoopExit.returnedFalse, w2) => (false, w2)
    | (LoopExit.created, w2) => (true, w2)
    | (LoopExit.conditionFalse, w2) => (true, w2)

/-- The rest of `Thread::start()` (thread.cpp:158-160): `_syncChild.set()`,
`_state = STATE_RUNNING`, `return true`, in the world the caller finds when it
takes the lock. -/
def startTail (w : World) : Outcome Bool × World :=
  match syncChildSet w with
  | none => (Outcome.blocked, w)
  | some w2 => (Outcome.returned true, setState State.STATE_RUNNING w2)

end Thread

/-- The steps of an execution unit, with their arguments.  `start()` and the
child entry routine are cut where the two threads wait for each other, so that
every step holds at most one assignment to `_state` and every order in which
the caller and the child can reach their assignments is a sequence of steps:
`startHead` (the caller, up to the wait), `runChildEntry` (the child, up to
`_syncChild.unset()`), then `startTail` (the caller's last assignment) and
`runChildBody` (the child's `run()` and `exit()`) in either order.  A step is
taken at the instant of its assignment, `join` at the instant `pthread_join`
answers.  The calls of the owner do not overlap one another. -/
inductive Op where
  | startHead (env : Env)
  | runChildEntry (user : UserCode) (self : PthreadT)
  | startTail
  | runChildBody (abortOnCheck : Bool) (lib : PthreadLib) (user : UserCode) (self : PthreadT)
      (initOk : Bool)
  | exit (abortOnCheck : Bool) (lib : PthreadLib) (self : PthreadT) (retVal : Nat)
  | cancel (abortOnCheck : Bool) (self : PthreadT)
  | join (env : Env) (self : PthreadT) (wantResult : Bool)

/-- The world a step leaves behind. -/
def Op.run : Op → World → World
  | Op.startHead env, w => (Thread.startHead env w).2
  | Op.runChildEntry user self, w => (Thread._runChildEntry user self w).2
  | Op.startTail, w => (Thread.startTail w).2
  | Op.runChildBody abortOnCheck lib user self initOk, w =>
    (Thread._runChildBody abortOnCheck lib user self initOk w).2
  | Op.exit abortOnCheck lib self retVal, w => (Thread.exit abortOnCheck lib self retVal w).2
  | Op.cancel abortOnCheck self, w => (Thread.cancel abortOnCheck self w).2
  | Op.join env self wantResult, w => (Thread.join env self wantResult w).2

/-- The step is taken at its place in the lifecycle: the first part of
`start()` in any state; the first half of the child entry routine in Starting
with an `init()` that succeeds; the last assignment of `start()` while the unit
is still Starting or Running; the second half of the child entry routine
after a failed `init()`, or on a unit that is Running or already Stopping;
`exit` and `cancel` on a unit that is Running or already Stopping; `join` on a
unit that is Stopping or already Stopped. -/
def Op.inPlace : Op → World → Bool
  | Op.startHead _, _ => true
  | Op.runChildEntry user _, w => user.init && decide (w.thread._state = State.STATE_STARTING)
  | Op.startTail, w =>
    decide (w.thread._state = State.STATE_STARTING ∨ w.thread._state = State.STATE_RUNNING)
  | Op.runChildBody _ _ _ _ initOk, w =>
    !initOk ||
      decide (w.thread._state = State.STATE_RUNNING ∨ w.thread._state = State.STATE_STOPPING)
  | Op.exit _ _ _ _, w =>
    decide (w.thread._state = State.STATE_RUNNING ∨ w.thread._state = State.STATE_STOPPING)
  | Op.cancel _ _, w =>
    decide (w.thread._state = State.STATE_RUNNING ∨ w.thread._state = State.STATE_STOPPING)
  | Op.join _ _ _, w =>
    decide (w.thread._state = State.STATE_STOPPING ∨ w.thread._state = State.STATE_STOPPED)

/-- A freshly constructed unit in a process without listeners. -/
def initialWorld (garbageThreadID : PthreadT) : World :=
  { thread := Thread.new garbageThreadID, _listeners := [], _cleanupKey := fun _ => false,
    trace := [] }

/-- The worlds reached from a fresh unit by the steps. -/
inductive Reachable : World → Prop where
  | init (garbageThreadID : PthreadT) : Reachable (initialWorld garbageThreadID)
  | step (op : Op) (w : World) : Reachable w → Reachable (op.run w)

/-- The actions added to the trace between `w` and `w2`. -/
def newEvents (w w2 : World) : List Event :=
  w2.trace.drop w.trace.length

/-- The state changes among a list of actions: the assignments to `_state`
that store a value different from the old one. -/
def stateChanges : List Event → List (State × State)
  | [] => []
  | Event.stateWrite old new :: es =>
    if old = new then stateChanges es else (old, new) :: stateChanges es
  | _ :: es => stateChanges es

/-- The edges of the cycle Stopped, Starting, Running, Stopping, Stopped. -/
def cycleEdge : State → State → Bool
  | State.STATE_STOPPED, State.STATE_STARTING => true
  | State.STATE_STARTING, State.STATE_RUNNING => true
  | State.STATE_RUNNING, State.STATE_STOPPING => true
  | State.STATE_STOPPING, State.STATE_STOPPED => true
  | _, _ => false

/-- The listeners whose `notifyExecutionStarted` was called, in call order. -/
def startedCalls : List Event → List Listener
  | [] => []
  | Event.notifyExecutionStarted l :: es => l :: startedCalls es
  | _ :: es => startedCalls es

/-- The listeners whose `notifyExecutionStopping` was called, in call order. -/
def stoppingCalls : List Event → List Listener
  | [] => []
  | Event.notifyExecutionStopping l :: es => l :: stoppingCalls es
  | _ :: es => stoppingCalls es

/-- The threads on which the teardown hook `_notifyStopping` was entered, in
call order. -/
def hookCalls : List Event → List PthreadT
  | [] => []
  | Event.callNotifyStopping t :: es => t :: hookCalls es
  | _ :: es => hookCalls es

/-! ## Example data -/

/-- The environment of the examples: every `pthread_create` succeeds and
creates thread 7, `pthread_join` succeeds with value 0. -/
def envOk : Env :=
  { createError := fun _ => 0, childTid := 7, joinError := 0, joinValue := 0 }

/-- A unit in state `s` whose thread is thread 7, in a process with the
listeners 1 and 2. -/
def worldIn (s : State) : World :=
  { thread := { _state := s, _threadID := 7, dataThreadID := 7, _syncChild := true },
    _listeners := [1, 2], _cleanupKey := fun _ => false, trace := [] }

/-- A unit whose `init()` succeeds and whose `run()` returns 0. -/
def userOk : UserCode := { init := true, run := RunBehaviour.returns 0 }

/-- A unit whose `init()` succeeds and whose `run()` is cancelled. -/
def userCanceled : UserCode := { init := true, run := RunBehaviour.canceled }

/-- A POSIX pthread library with four destructor rounds. -/
def libPosix : PthreadLib := { clearsFirst := true, iterations := 4 }

/-- What `run()` and the way it ends add to the trace before the teardown. -/
def runTail (self : PthreadT) : RunBehaviour → List Event
  | RunBehaviour.returns result =>
    [Event.stateWrite State.STATE_RUNNING State.STATE_STOPPING, Event.pthreadExit self result]
  | RunBehaviour.exits result =>
    [Event.stateWrite State.STATE_RUNNING State.STATE_STOPPING, Event.pthreadExit self result]
  | RunBehaviour.canceled => [Event.pthreadCanceled self]

/-- A unit whose `init()` fails. -/
def userFail : UserCode := { init := false, run := RunBehaviour.returns 0 }

/-- A unit at the point where `start()`, called from thread 1, waits in
`_syncChild.set()` and its thread 7 has released `_syncChild` after a
successful `init()`. -/
def startedChild : World :=
  (Op.runChildEntry userOk 7).run ((Op.startHead envOk).run (initialWorld 0))

/-- A unit that was started from thread 1, whose `run()` returned on thread 7
after `start()` had returned, and that was then joined from thread 1: it is
Stopped again. -/
def stoppedAgain : World :=
  (Op.join envOk 1 false).run
    ((Op.runChildBody false libPosix userOk 7 true).run (Op.startTail.run startedChild))

/-- A unit whose `run()` returned on thread 7, so that `exit()` has assigned
Stopping, before the caller of `start()` has made its last assignment. -/
def childWentFirst : World :=
  (Op.runChildBody false libPosix userOk 7 true).run startedChild

/-- An environment whose `pthread_join` reports the error 3. -/
def envJoinFails : Env :=
  { createError := fun _ => 0, childTid := 7, joinError := 3, joinValue := 0 }

/-- The number of `pthread_create` calls among a list of actions. -/
def createCalls : List Event → Nat
  | [] => 0
  | Event.pthreadCreate _ :: es => createCalls es + 1
  | _ :: es => createCalls es

/-- An environment whose first two `pthread_create` attempts fail with
`EAGAIN` and whose third attempt creates thread 7. -/
def envEagainTwice : Env :=
  { createError := fun n => if n < 2 then EAGAIN else 0, childTid := 7, joinError := 0,
    joinValue := 0 }

/-- An environment whose `pthread_create` attempts all fail with `EAGAIN`. -/
def envEagainAlways : Env :=
  { createError := fun _ => EAGAIN, childTid := 7, joinError := 0, joinValue := 0 }

/-- An environment whose first `pthread_create` attempt fails with `EAGAIN`
and whose second attempt fails with the error 22. -/
def envEagainThenError : Env :=
  { createError := fun n => if n < 1 then EAGAIN else 22, childTid := 7, joinError := 0,
    joinValue := 0 }

end eqBase

namespace eq.server

/-- A `net::Barrier` as the barrier cache sees it: which barrier object it is
and its height. -/
structure Barrier where
  id : Nat
  height : Nat
  deriving DecidableEq, Repr

/-- A `net::SessionPacket`: the `sessionID` field that `Node::send` stamps, and
the rest of the packet. -/
structure SessionPacket where
  sessionID : Nat
  content : Nat
  deriving DecidableEq, Repr

/-- What the overloads of `Node::send` attach to a packet: nothing, a
`std::string`, or a `std::vector<T>`. -/
inductive Attachment where
  | nothing
  | string (chars : List Nat)
  | vector (data : List Nat)
  deriving DecidableEq, Repr

/-- The members of `eq::server::Node` that the claims are about: the
activation counter `uint32_t _active`, the map `_frameIDs` of the frames in
flight (frame number, frame identifier), `_finishedFrame`, `_flushedFrame`, the
barrier cache `_barriers` (front of the vector first) and the buffer of
`_bufferedTasks`; with them the identifier of the owning config
(`getConfig()->getID()`), the number of barriers constructed so far, and the
writes made so far on the connection of `_node`, oldest first. -/
structure Node where
  _active : Nat
  _frameIDs : List (Nat × Nat)
  _finishedFrame : Nat
  _flushedFrame : Nat
  _barriers : List Barrier
  _bufferedTasks : List (SessionPacket × Attachment)
  configID : Nat
  barriersCreated : Nat
  connection : List (List (SessionPacket × Attachment))
  deriving DecidableEq, Repr

/-- The calls of the activation interface. -/
inductive ActivationCall where
  | activate
  | deactivate
  deriving DecidableEq, Repr

namespace Node

/-- Modelled from the spec: the constructor is defined in `node.cpp`, which is
not among the sources; the activation scenario of the spec starts from a
counter of 0, and a new node has no frame in flight, no finished or flushed
frame, no cached barrier and nothing buffered or written. -/
def new : Node :=
  { _active := 0, _frameIDs := [], _finishedFrame := 0, _flushedFrame := 0, _barriers := [],
    _bufferedTasks := [], configID := 0, barriersCreated := 0, connection := [] }

/-- Modelled from the spec: `Node::activate` is defined in `node.cpp`, which
is not among the sources; the spec says it increments the activation counter,
here the `uint32_t _active` of `node.h`. -/
def activate (n : Node) : Node :=
  { n with _active := (n._active + 1) % 2 ^ 32 }

/-- Modelled from the spec: `Node::deactivate` is defined in `node.cpp`, which
is not among the sources; the spec says it decrements the activation counter,
here the `uint32_t _active` of `node.h`. -/
def deactivate (n : Node) : Node :=
  { n with _active := (n._active + 2 ^ 32 - 1) % 2 ^ 32 }

/-- `Node::isActive`: `_active != 0`. -/
def isActive (n : Node) : Bool :=
  n._active != 0

/-- One call of the activation interface. -/
def call (n : Node) : ActivationCall → Node
  | ActivationCall.activate => n.activate
  | ActivationCall.deactivate => n.deactivate

/-- A sequence of calls, first call first. -/
def calls (cs : List ActivationCall) (n : Node) : Node :=
  cs.foldl call n

end Node

/-- The number of `activate()` calls in a sequence. -/
def activations (cs : List ActivationCall) : Nat :=
  cs.count ActivationCall.activate

/-- The number of `deactivate()` calls in a sequence. -/
def deactivations (cs : List ActivationCall) : Nat :=
  cs.count ActivationCall.deactivate

/-- No initial part of the sequence has more deactivations than activations. -/
def balanced (cs : List ActivationCall) : Prop :=
  ∀ k, deactivations (cs.take k) ≤ activations (cs.take k)

/-! ### Frames -/

namespace Node

/-- `Node::getFinishedFrame`: `_finishedFrame`. -/
def getFinishedFrame (n : Node) : Nat :=
  n._finishedFrame

/-- Modelled from the spec: `Node::update` is defined in `node.cpp`, which is
not among the sources; the spec says it records `frameNumber -> frameID` in
the map of the frames in flight.  That the node is running and active is left
to the caller, and the task packets it sends are left out. -/
def update (frameID frameNumber : Nat) (n : Node) : Node :=
  { n with _frameIDs := (frameNumber, frameID) :: n._frameIDs.filter (fun p => p.1 != frameNumber) }

/-- Modelled from the spec: `Node::flushFrames` is defined in `node.cpp`, which
is not among the sources; the spec says it advances `flushedFrame` to
`frameNumber`.  The frame finish requests it sends are left out. -/
def flushFrames (frameNumber : Nat) (n : Node) : Node :=
  { n with _flushedFrame := if n._flushedFrame < frameNumber then frameNumber else n._flushedFrame }

/-- Modelled from the spec: `Node::finishFrame` and the handler of the remote
acknowledgement are defined in `node.cpp`, which is not among the sources; the
spec says that on receipt of the acknowledgement for `frame` the node advances
`finishedFrame` to `frame`, ignores it when it is not newer than
`finishedFrame`, and removes `frame` from the map of the frames in flight.  As
in the scenario of the spec, the call stands for the call together with its
acknowledgement. -/
def finishFrame (frame : Nat) (n : Node) : Node :=
  { n with
    _finishedFrame := if n._finishedFrame < frame then frame else n._finishedFrame
    _frameIDs := n._frameIDs.filter (fun p => p.1 != frame) }

end Node

/-- The calls of the frame interface. -/
inductive FrameCall where
  | update (frameID frameNumber : Nat)
  | flushFrames (frameNumber : Nat)
  | finishFrame (frame : Nat)
  deriving DecidableEq, Repr

/-- One call of the frame interface. -/
def Node.frameCall (n : Node) : FrameCall → Node
  | FrameCall.update frameID frameNumber => n.update frameID frameNumber
  | FrameCall.flushFrames frameNumber => n.flushFrames frameNumber
  | FrameCall.finishFrame frame => n.finishFrame frame

/-- A sequence of calls of the frame interface, first call first. -/
def Node.frameCalls (cs : List FrameCall) (n : Node) : Node :=
  cs.foldl Node.frameCall n

/-- The highest frame number passed to `update` in a sequence of calls, 0 when
there is none. -/
def highestUpdate : List FrameCall → Nat
  | [] => 0
  | FrameCall.update _ frameNumber :: cs => max frameNumber (highestUpdate cs)
  | _ :: cs => highestUpdate cs

/-- No frame number passed to `finishFrame` is above the highest frame number
passed to `update` before it; `hi` is the highest frame number passed to
`update` before the sequence. -/
def acksWithinUpdates : Nat → List FrameCall → Bool
  | _, [] => true
  | hi, FrameCall.update _ frameNumber :: cs => acksWithinUpdates (max hi frameNumber) cs
  | hi, FrameCall.flushFrames _ :: cs => acksWithinUpdates hi cs
  | hi, FrameCall.finishFrame frame :: cs => decide (frame ≤ hi) && acksWithinUpdates hi cs

/-! ### The barrier cache -/

namespace Node

/-- Modelled from the spec: `Node::getBarrier` is defined in `node.cpp`, which
is not among the sources; the spec says it returns a cached barrier with its
height reset to 0 if one is idle and constructs a new one otherwise, and
`node.h` documents the result as "a new barrier of height 0".  The spec leaves
the order of reuse open ("FIFO/LIFO"): `lifo` takes the barrier from the back of
the cache, otherwise it is taken from the front. -/
def getBarrier (lifo : Bool) (n : Node) : Barrier × Node :=
  if lifo then
    match n._barriers.getLast? with
    | some b => ({ b with height := 0 }, { n with _barriers := n._barriers.dropLast })
    | none =>
      ({ id := n.barriersCreated, height := 0 },
        { n with barriersCreated := n.barriersCreated + 1 })
  else
    match n._barriers with
    | b :: rest => ({ b with height := 0 }, { n with _barriers := rest })
    | [] =>
      ({ id := n.barriersCreated, height := 0 },
        { n with barriersCreated := n.barriersCreated + 1 })

/-- Modelled from the spec: `Node::releaseBarrier` is defined in `node.cpp`,
which is not among the sources; the spec says it returns the barrier to the
cache. -/
def releaseBarrier (barrier : Barrier) (n : Node) : Node :=
  { n with _barriers := n._barriers ++ [barrier] }

/-! ### The send buffer -/

/-- Modelled from the spec: `net::BufferConnection::send` is not among the
sources; the spec says an enqueued packet, with what is attached to it, is
appended to the buffer without being transmitted. -/
def bufferedSend (packet : SessionPacket) (attached : Attachment) (n : Node) : Node :=
  { n with _bufferedTasks := n._bufferedTasks ++ [(packet, attached)] }

/-- `Node::send( net::SessionPacket& )`: stamp the packet with the id of the
config, then hand it to `_bufferedTasks`.  The first component is the packet as
the caller finds it afterwards. -/
def send (packet : SessionPacket) (n : Node) : SessionPacket × Node :=
  let stamped : SessionPacket := { packet with sessionID := n.configID }
  (stamped, n.bufferedSend stamped Attachment.nothing)

/-- `Node::send( net::SessionPacket&, const std::string& )`. -/
def sendString (packet : SessionPacket) (string : List Nat) (n : Node) : SessionPacket × Node :=
  let stamped : SessionPacket := { packet with sessionID := n.configID }
  (stamped, n.bufferedSend stamped (Attachment.string string))

/-- `Node::send( net::SessionPacket&, const std::vector<T>& )`. -/
def sendVector (packet : SessionPacket) (data : List Nat) (n : Node) : SessionPacket × Node :=
  let stamped : SessionPacket := { packet with sessionID := n.configID }
  (stamped, n.bufferedSend stamped (Attachment.vector data))

/-- Modelled from the spec: `Node::flushSendBuffer` is defined in `node.cpp`,
which is not among the sources; the spec says a flush transmits the
accumulated buffer and clears it, that a whole batch goes out as one write,
and that a flush of an empty buffer does nothing. -/
def flushSendBuffer (n : Node) : Node :=
  if n._bufferedTasks = [] then n
  else { n with connection := n.connection ++ [n._bufferedTasks], _bufferedTasks := [] }

end Node

/-- A call of one of the three overloads of `Node::send`. -/
inductive SendCall where
  | plain (packet : SessionPacket)
  | withString (packet : SessionPacket) (string : List Nat)
  | withVector (packet : SessionPacket) (data : List Nat)
  deriving DecidableEq, Repr

/-- The packet handed to the call. -/
def SendCall.packet : SendCall → SessionPacket
  | SendCall.plain packet => packet
  | SendCall.withString packet _ => packet
  | SendCall.withVector packet _ => packet

/-- What the call attaches to the packet. -/
def SendCall.attached : SendCall → Attachment
  | SendCall.plain _ => Attachment.nothing
  | SendCall.withString _ string => Attachment.string string
  | SendCall.withVector _ data => Attachment.vector data

/-- One call of `Node::send`, by overload. -/
def Node.sendCall (n : Node) : SendCall → SessionPacket × Node
  | SendCall.plain packet => n.send packet
  | SendCall.withString packet string => n.sendString packet string
  | SendCall.withVector packet data => n.sendVector packet data

end eq.server

namespace eq

/-! ### The AGL event handler (`src/lib/client/aglEventHandler.cpp`) -/

/-- The constants that `aglEventHandler.cpp` takes from headers which are not
among the sources: the height of the menu bar, the button masks, the two
modifier masks of Carbon, and the bit masks of `_getButtonState`. -/
structure Constants where
  EQ_AGL_MENUBARHEIGHT : Nat
  PTR_BUTTON_NONE : Nat
  PTR_BUTTON1 : Nat
  PTR_BUTTON2 : Nat
  PTR_BUTTON3 : Nat
  controlKey : Nat
  optionKey : Nat
  EQ_BIT2 : Nat
  EQ_BIT3 : Nat

/-- A `HIPoint`: two floating-point coordinates, taken at their exact
(rational) value. -/
structure HIPoint where
  x : ℚ
  y : ℚ

/-- The Carbon `Rect` of `GetWindowPortBounds`: four `short` coordinates. -/
structure Rect where
  top : Int
  left : Int
  bottom : Int
  right : Int
  deriving DecidableEq, Repr

/-- The kinds of mouse events `_handleMouseEvent` tells apart. -/
inductive MouseEventKind where
  | kEventMouseMoved
  | kEventMouseDragged
  | kEventMouseDown
  | kEventMouseUp
  | other
  deriving DecidableEq, Repr

/-- The kinds of window events `_handleWindowEvent` tells apart. -/
inductive WindowEventKind where
  | kEventWindowBoundsChanged
  | kEventWindowZoomed
  | kEventWindowUpdate
  | kEventWindowDrawContent
  | kEventWindowClosed
  | kEventWindowHidden
  | kEventWindowCollapsed
  | kEventWindowShown
  | kEventWindowExpanded
  | other
  deriving DecidableEq, Repr

/-- The values of `kEventParamMouseButton`. -/
inductive EventMouseButton where
  | kEventMouseButtonPrimary
  | kEventMouseButtonSecondary
  | kEventMouseButtonTertiary
  | other
  deriving DecidableEq, Repr

/-- The event types assigned by the two handlers. -/
inductive EventType where
  | POINTER_MOTION
  | POINTER_BUTTON_PRESS
  | POINTER_BUTTON_RELEASE
  | WINDOW_RESIZE
  | EXPOSE
  | WINDOW_CLOSE
  | WINDOW_HIDE
  | WINDOW_SHOW
  | UNKNOWN
  deriving DecidableEq, Repr

/-- The pointer data of a window event.  The source writes it through the
members `pointerMotion`, `pointerButtonPress` and `pointerButtonRelease`, which
it uses as one and the same record (`buttons` is always written through
`pointerMotion`). -/
structure PointerEvent where
  x : Int
  y : Int
  dx : Int
  dy : Int
  buttons : Nat
  button : Nat
  deriving DecidableEq, Repr

/-- The resize data of a window event. -/
structure ResizeEvent where
  x : Int
  y : Int
  w : Int
  h : Int
  deriving DecidableEq, Repr

/-- An `AGLWindowEvent` as far as the two handlers fill it in. -/
structure AGLWindowEvent where
  type : EventType
  pointer : PointerEvent
  resize : ResizeEvent
  originator : Nat
  deriving DecidableEq, Repr

/-- What a Carbon mouse event carries: its kind and the parameters read with
`GetEventParameter`. -/
structure MouseEvent where
  kind : MouseEventKind
  keyModifiers : Nat
  windowMouseLocation : HIPoint
  mouseDelta : HIPoint
  mouseButton : EventMouseButton

/-- What the handlers obtain from the window system and the window: the
result of `GetCurrentEventButtonState()`, whether the window is decorated
(`IATTR_HINT_DECORATION != OFF`), the id of the window, the event as its
constructor leaves it, and the answer of `processEvent`. -/
structure WindowSystem where
  currentEventButtonState : Nat
  decoration : Bool
  windowID : Nat
  blank : AGLWindowEvent
  processEvent : AGLWindowEvent → Bool

/-- The members `_lastDX` and `_lastDY` of the handler. -/
structure AGLEventHandler where
  _lastDX : Int
  _lastDY : Int
  deriving DecidableEq, Repr

/-- The value of a finite floating-point number cut off towards zero. -/
def truncate (q : ℚ) : Int :=
  if 0 ≤ q then ⌊q⌋ else ⌈q⌉

/-- The conversion `static_cast< int32_t >( q )`: the value cut off towards
zero when that fits into 32 bits, and undefined otherwise. -/
def toInt32 (q : ℚ) : Option Int :=
  if -2 ^ 31 ≤ truncate q ∧ truncate q < 2 ^ 31 then some (truncate q) else none

/-- A result of `int32_t` arithmetic, wrapped into 32 bits. -/
def wrapInt32 (z : Int) : Int :=
  (z + 2 ^ 31) % 2 ^ 32 - 2 ^ 31

namespace AGLEventHandler

/-- The three summands of `_getButtonState`, each a `uint32` value. -/
def buttonStateParts (k : Constants) (buttons : Nat) : Nat × Nat × Nat :=
  (buttons &&& 0xfffffff9, (buttons &&& k.EQ_BIT3) >>> 1,
    ((buttons &&& k.EQ_BIT2) <<< 1) % 2 ^ 32)

/-- `AGLEventHandler::_getButtonState`, for the `uint32` result `buttons` of
`GetCurrentEventButtonState()`: the sum of the three summands in `uint32`
arithmetic. -/
def _getButtonState (k : Constants) (buttons : Nat) : Nat :=
  ((buttonStateParts k buttons).1 + (buttonStateParts k buttons).2.1 +
    (buttonStateParts k buttons).2.2) % 2 ^ 32

/-- `AGLEventHandler::_getButtonAction`. -/
def _getButtonAction (k : Constants) : EventMouseButton → Nat
  | EventMouseButton.kEventMouseButtonPrimary => k.PTR_BUTTON1
  | EventMouseButton.kEventMouseButtonSecondary => k.PTR_BUTTON3
  | EventMouseButton.kEventMouseButtonTertiary => k.PTR_BUTTON2
  | EventMouseButton.other => k.PTR_BUTTON_NONE

/-- The block that `_handleMouseEvent` repeats in its three pointer cases:
when only the left button is pressed, the control key turns it into button 3
and otherwise the option key turns it into button 2. -/
def modifierButtons (k : Constants) (buttons keys : Nat) : Nat :=
  if buttons = k.PTR_BUTTON1 then
    if keys &&& k.controlKey ≠ 0 then k.PTR_BUTTON3
    else if keys &&& k.optionKey ≠ 0 then k.PTR_BUTTON2
    else buttons
  else buttons

/-- The local `menuHeight` of `_handleMouseEvent`:
`decoration ? EQ_AGL_MENUBARHEIGHT : 0`. -/
def menuHeight (k : Constants) (sys : WindowSystem) : Nat :=
  if sys.decoration then k.EQ_AGL_MENUBARHEIGHT else 0

/-- `AGLEventHandler::_handleMouseEvent`.  The answer holds the value
returned, the event handed to `processEvent`, if any, and the handler
afterwards; there is no answer when a coordinate does not convert to
`int32_t`.  The call of `_getRenderContext`, which is not among the sources and
is given the event after its pointer data has been filled in, is left out. -/
def _handleMouseEvent (k : Constants) (sys : WindowSystem) (event : MouseEvent)
    (handler : AGLEventHandler) : Option (Bool × Option AGLWindowEvent × AGLEventHandler) :=
  let menuHeight : Nat := menuHeight k sys
  let pos := event.windowMouseLocation
  match event.kind with
  | MouseEventKind.kEventMouseMoved | MouseEventKind.kEventMouseDragged =>
    let buttons := modifierButtons k (_getButtonState k sys.currentEventButtonState)
      event.keyModifiers
    if pos.y < (menuHeight : ℚ) then some (false, none, handler)
    else
      (toInt32 pos.x).bind fun x =>
      (toInt32 pos.y).bind fun y =>
      (toInt32 event.mouseDelta.x).bind fun dx =>
      (toInt32 event.mouseDelta.y).bind fun dy =>
        let windowEvent : AGLWindowEvent :=
          { sys.blank with
            type := EventType.POINTER_MOTION
            pointer := { x := x, y := wrapInt32 (y - menuHeight), dx := dx, dy := dy,
                         buttons := buttons, button := k.PTR_BUTTON_NONE }
            originator := sys.windowID }
        some (sys.processEvent windowEvent, some windowEvent, { _lastDX := dx, _lastDY := dy })
  | MouseEventKind.kEventMouseDown =>
    let buttons := modifierButtons k (_getButtonState k sys.currentEventButtonState)
      event.keyModifiers
    if pos.y < (menuHeight : ℚ) then some (false, none, handler)
    else
      (toInt32 pos.x).bind fun x =>
      (toInt32 pos.y).bind fun y =>
        let windowEvent : AGLWindowEvent :=
          { sys.blank with
            type := EventType.POINTER_BUTTON_PRESS
            pointer := { x := x, y := wrapInt32 (y - menuHeight), dx := handler._lastDX,
                         dy := handler._lastDY, buttons := buttons,
                         button := _getButtonAction k event.mouseButton }
            originator := sys.windowID }
        some (sys.processEvent windowEvent, some windowEvent, { _lastDX := 0, _lastDY := 0 })
  | MouseEventKind.kEventMouseUp =>
    let buttons := modifierButtons k (_getButtonState k sys.currentEventButtonState)
      event.keyModifiers
    if pos.y < (menuHeight : ℚ) then some (false, none, handler)
    else
      (toInt32 pos.x).bind fun x =>
      (toInt32 pos.y).bind fun y =>
        let windowEvent : AGLWindowEvent :=
          { sys.blank with
            type := EventType.POINTER_BUTTON_RELEASE
            pointer := { x := x, y := wrapInt32 (y - menuHeight), dx := handler._lastDX,
                         dy := handler._lastDY, buttons := buttons,
                         button := _getButtonAction k event.mouseButton }
            originator := sys.windowID }
        some (sys.processEvent windowEvent, some windowEvent, { _lastDX := 0, _lastDY := 0 })
  | MouseEventKind.other =>
    let windowEvent : AGLWindowEvent :=
      { sys.blank with type := EventType.UNKNOWN, originator := sys.windowID }
    some (sys.processEvent windowEvent, some windowEvent, handler)

/-- `AGLEventHandler::_handleWindowEvent` for the port bounds `rect` of the
window: the value returned and the event handed to `processEvent`.  The
Carbon calls of the cases (`BeginUpdate`, `EndUpdate`, `SetUserFocusWindow`) are
left out. -/
def _handleWindowEvent (sys : WindowSystem) (kind : WindowEventKind) (rect : Rect) :
    Bool × AGLWindowEvent :=
  let resize : ResizeEvent :=
    { x := rect.top, y := rect.left, h := rect.bottom - rect.top, w := rect.right - rect.left }
  let type : EventType :=
    match kind with
    | WindowEventKind.kEventWindowBoundsChanged => EventType.WINDOW_RESIZE
    | WindowEventKind.kEventWindowZoomed => EventType.WINDOW_RESIZE
    | WindowEventKind.kEventWindowUpdate => EventType.EXPOSE
    | WindowEventKind.kEventWindowDrawContent => EventType.EXPOSE
    | WindowEventKind.kEventWindowClosed => EventType.WINDOW_CLOSE
    | WindowEventKind.kEventWindowHidden => EventType.WINDOW_HIDE
    | WindowEventKind.kEventWindowCollapsed => EventType.WINDOW_HIDE
    | WindowEventKind.kEventWindowShown => EventType.WINDOW_SHOW
    | WindowEventKind.kEventWindowExpanded => EventType.WINDOW_SHOW
    | WindowEventKind.other => EventType.UNKNOWN
  let windowEvent : AGLWindowEvent :=
    { sys.blank with resize := resize, type := type, originator := sys.windowID }
  (sys.processEvent windowEvent, windowEvent)

end AGLEventHandler

/-! ### Example data -/

/-- The constants with the values of the Equalizer and Carbon headers: a menu
bar of 22 pixels, the buttons 1, 2, 4, `controlKey` 4096, `optionKey` 2048. -/
def constants : Constants :=
  { EQ_AGL_MENUBARHEIGHT := 22, PTR_BUTTON_NONE := 0, PTR_BUTTON1 := 1, PTR_BUTTON2 := 2,
    PTR_BUTTON3 := 4, controlKey := 4096, optionKey := 2048, EQ_BIT2 := 2, EQ_BIT3 := 4 }

/-- An event without content. -/
def blankEvent : AGLWindowEvent :=
  { type := EventType.UNKNOWN,
    pointer := { x := 0, y := 0, dx := 0, dy := 0, buttons := 0, button := 0 },
    resize := { x := 0, y := 0, w := 0, h := 0 }, originator := 0 }

/-- A decorated window 3 with the left button pressed, whose `processEvent`
answers true. -/
def decorated : WindowSystem :=
  { currentEventButtonState := 1, decoration := true, windowID := 3, blank := blankEvent,
    processEvent := fun _ => true }

/-- A mouse event of the given kind at (40, 30), moved by (1, 2), with the
control key held. -/
def mouseAt (kind : MouseEventKind) : MouseEvent :=
  { kind := kind, keyModifiers := 4096, windowMouseLocation := { x := 40, y := 30 },
    mouseDelta := { x := 1, y := 2 },
    mouseButton := EventMouseButton.kEventMouseButtonPrimary }

/-- The port bounds with top 10, left 20, bottom 110 and right 220. -/
def portBounds : Rect := { top := 10, left := 20, bottom := 110, right := 220 }

/-- The event handed on for `mouseAt kind` in the decorated example window. -/
def forwardedAt (type : EventType) (dx dy : Int) : AGLWindowEvent :=
  { type := type, pointer := { x := 40, y := 8, dx := dx, dy := dy, buttons := 4, button := 1 },
    resize := { x := 0, y := 0, w := 0, h := 0 }, originator := 3 }

/-- A handler whose last motion delta is (5, 6). -/
def handlerAfterMotion : AGLEventHandler := { _lastDX := 5, _lastDY := 6 }

end eq

namespace eqBase

/-! ## Traces of the building blocks -/

@[simp] theorem emit_trace (e : Event) (w : World) : (emit e w).trace = w.trace ++ [e] := rfl

@[simp] theorem emit_thread (e : Event) (w : World) : (emit e w).thread = w.thread := rfl

@[simp] theorem emit_listeners (e : Event) (w : World) : (emit e w)._listeners = w._listeners := rfl

@[simp] theorem emit_cleanupKey (e : Event) (w : World) : (emit e w)._cleanupKey = w._cleanupKey := rfl

@[simp] theorem setState_trace (s : State) (w : World) :
    (setState s w).trace = w.trace ++ [Event.stateWrite w.thread._state s] := rfl

@[simp] theorem setState_thread (s : State) (w : World) :
    (setState s w).thread = { w.thread with _state := s } := rfl

@[simp] theorem setState_listeners (s : State) (w : World) :
    (setState s w)._listeners = w._listeners := rfl

@[simp] theorem setState_cleanupKey (s : State) (w : World) :
    (setState s w)._cleanupKey = w._cleanupKey := rfl

theorem foldl_emit (f : Listener → Event) (ls : List Listener) (w : World) :
    ls.foldl (fun acc l => emit (f l) acc) w = { w with trace := w.trace ++ ls.map f } := by
  induction ls generalizing w with
  | nil => simp
  | cons l ls ih =>
    rw [List.foldl_cons, ih]
    simp [emit]

theorem newEvents_append (w w2 : World) (es : List Event) (h : w2.trace = w.trace ++ es) :
    newEvents w w2 = es := by
  simp [newEvents, h]

/-! ## Reading traces -/

theorem stateChanges_append (xs ys : List Event) :
    stateChanges (xs ++ ys) = stateChanges xs ++ stateChanges ys := by
  induction xs with
  | nil => rfl
  | cons x xs ih =>
    cases x <;> simp [stateChanges, ih]
    split <;> simp

theorem stateChanges_ne (es : List Event) : ∀ c ∈ stateChanges es, c.1 ≠ c.2 := by
  induction es with
  | nil => simp [stateChanges]
  | cons e es ih =>
    intro c hc
    cases e with
    | stateWrite old new =>
      simp only [stateChanges] at hc
      split at hc
      · exact ih c hc
      · rcases List.mem_cons.mp hc with rfl | hc
        · assumption
        · exact ih c hc
    | _ => exact ih c (by simpa [stateChanges] using hc)

theorem startedCalls_append (xs ys : List Event) :
    startedCalls (xs ++ ys) = startedCalls xs ++ startedCalls ys := by
  induction xs with
  | nil => rfl
  | cons x xs ih => cases x <;> simp [startedCalls, ih]

theorem stoppingCalls_append (xs ys : List Event) :
    stoppingCalls (xs ++ ys) = stoppingCalls xs ++ stoppingCalls ys := by
  induction xs with
  | nil => rfl
  | cons x xs ih => cases x <;> simp [stoppingCalls, ih]

theorem hookCalls_append (xs ys : List Event) :
    hookCalls (xs ++ ys) = hookCalls xs ++ hookCalls ys := by
  induction xs with
  | nil => rfl
  | cons x xs ih => cases x <;> simp [hookCalls, ih]

@[simp] theorem startedCalls_map_started (ls : List Listener) :
    startedCalls (ls.map Event.notifyExecutionStarted) = ls := by
  induction ls with
  | nil => rfl
  | cons l ls ih => simp [startedCalls, ih]

@[simp] theorem startedCalls_map_stopping (ls : List Listener) :
    startedCalls (ls.map Event.notifyExecutionStopping) = [] := by
  induction ls with
  | nil => rfl
  | cons l ls ih => simp [startedCalls, ih]

@[simp] theorem stoppingCalls_map_stopping (ls : List Listener) :
    stoppingCalls (ls.map Event.notifyExecutionStopping) = ls := by
  induction ls with
  | nil => rfl
  | cons l ls ih => simp [stoppingCalls, ih]

@[simp] theorem stoppingCalls_map_started (ls : List Listener) :
    stoppingCalls (ls.map Event.notifyExecutionStarted) = [] := by
  induction ls with
  | nil => rfl
  | cons l ls ih => simp [stoppingCalls, ih]

@[simp] theorem hookCalls_map_stopping (ls : List Listener) :
    hookCalls (ls.map Event.notifyExecutionStopping) = [] := by
  induction ls with
  | nil => rfl
  | cons l ls ih => simp [hookCalls, ih]

@[simp] theorem hookCalls_map_started (ls : List Listener) :
    hookCalls (ls.map Event.notifyExecutionStarted) = [] := by
  induction ls with
  | nil => rfl
  | cons l ls ih => simp [hookCalls, ih]

@[simp] theorem stateChanges_map_started (ls : List Listener) :
    stateChanges (ls.map Event.notifyExecutionStarted) = [] := by
  induction ls with
  | nil => rfl
  | cons l ls ih => simp [stateChanges, ih]

@[simp] theorem stateChanges_map_stopping (ls : List Listener) :
    stateChanges (ls.map Event.notifyExecutionStopping) = [] := by
  induction ls with
  | nil => rfl
  | cons l ls ih => simp [stateChanges, ih]

/-- The retry loop only adds `pthread_create` calls to the trace and leaves
the state, the lock, the listeners and the cleanup key alone. -/
theorem createLoop_spec (env : Env) (n attempt : Nat) (w : World) :
    ∃ rest, (Thread.createLoop env n attempt w).2.trace = w.trace ++ rest ∧
      stateChanges rest = [] ∧
      (Thread.createLoop env n attempt w).2.thread._state = w.thread._state ∧
      (Thread.createLoop env n attempt w).2.thread._syncChild = w.thread._syncChild ∧
      (Thread.createLoop env n attempt w).2._listeners = w._listeners := by
  induction n generalizing attempt w with
  | zero => exact ⟨[], by simp [Thread.createLoop, stateChanges]⟩
  | succ n ih =>
    unfold Thread.createLoop
    by_cases h0 : env.createError attempt = 0
    · exact ⟨[Event.pthreadCreate (env.createError attempt)], by simp [h0, stateChanges]⟩
    · by_cases h1 : env.createError attempt ≠ EAGAIN ∨ n = 0
      · exact ⟨[Event.pthreadCreate (env.createError attempt)], by simp [h0, h1, stateChanges]⟩
      · obtain ⟨rest, hr, hs, h2, h3, h4⟩ :=
          ih (attempt + 1) (emit (Event.pthreadCreate (env.createError attempt)) w)
        refine ⟨Event.pthreadCreate (env.createError attempt) :: rest, ?_⟩
        simp only [h0, h1, if_false]
        simp [hr, hs, h2, h3, h4, stateChanges]

/-- The first attempt of the retry loop is a `pthread_create` call. -/
theorem createLoop_first (env : Env) (n attempt : Nat) (w : World) :
    ∃ rest, (Thread.createLoop env (n + 1) attempt w).2.trace =
      w.trace ++ Event.pthreadCreate (env.createError attempt) :: rest := by
  unfold Thread.createLoop
  by_cases h0 : env.createError attempt = 0
  · exact ⟨[], by simp [h0]⟩
  · by_cases h1 : env.createError attempt ≠ EAGAIN ∨ n = 0
    · exact ⟨[], by simp [h0, h1]⟩
    · obtain ⟨rest, hr, _⟩ :=
        createLoop_spec env n (attempt + 1) (emit (Event.pthreadCreate (env.createError attempt)) w)
      refine ⟨rest, ?_⟩
      simp only [h0, h1, if_false]
      simp [hr]

/-- The trace of the first half of the child entry routine. -/
theorem runChildEntry_trace (user : UserCode) (self : PthreadT) (w : World) :
    (Thread._runChildEntry user self w).2.trace =
      w.trace ++ (if user.init then
        [Event.callInit, Event.stateWrite w.thread._state State.STATE_RUNNING,
          Event.pthreadSetspecific self true] ++
          w._listeners.map Event.notifyExecutionStarted ++ [Event.syncChildUnset]
      else
        [Event.callInit, Event.stateWrite w.thread._state State.STATE_STOPPED,
          Event.syncChildUnset]) := by
  cases hi : user.init <;>
    simp [Thread._runChildEntry, hi, Thread._notifyStarted, foldl_emit, pthread_setspecific]

/-- The first half of the child entry routine releases `_syncChild`. -/
theorem runChildEntry_syncChild (user : UserCode) (self : PthreadT) (w : World) :
    (Thread._runChildEntry user self w).2.thread._syncChild = false := by
  cases hi : user.init <;>
    simp [Thread._runChildEntry, hi, Thread._notifyStarted, foldl_emit, pthread_setspecific]

/-! ## The teardown of a thread -/

/-- The teardown hook in one step: the key of the calling thread is cleared
and the trace gains the hook entry, the `pthread_setspecific` call and one
`notifyExecutionStopping` call per listener, front to back. -/
theorem notifyStopping_eq (self : PthreadT) (w : World) :
    Thread._notifyStopping self w =
      { w with
        _cleanupKey := fun t => if t = self then false else w._cleanupKey t
        trace := w.trace ++ [Event.callNotifyStopping self, Event.pthreadSetspecific self false] ++
          w._listeners.map Event.notifyExecutionStopping } := by
  unfold Thread._notifyStopping
  simp only [foldl_emit]
  simp [pthread_setspecific, emit]

/-- Without a value for the key, the library calls no destructor. -/
theorem runKeyDestructors_unset (c : Bool) (n : Nat) (self : PthreadT) (w : World)
    (h : w._cleanupKey self = false) : runKeyDestructors c n self w = w := by
  cases n with
  | zero => rfl
  | succ n => simp [runKeyDestructors, h]

/-- With a value for the key and at least one round, the library calls the
teardown hook once and stops. -/
theorem runKeyDestructors_set (c : Bool) (n : Nat) (self : PthreadT) (w : World)
    (h : w._cleanupKey self = true) (hn : 0 < n) :
    runKeyDestructors c n self w =
      { w with
        _cleanupKey := fun t => if t = self then false else w._cleanupKey t
        trace := w.trace ++ [Event.callNotifyStopping self, Event.pthreadSetspecific self false] ++
          w._listeners.map Event.notifyExecutionStopping } := by
  obtain ⟨m, rfl⟩ : ∃ m, n = m + 1 := ⟨n - 1, by omega⟩
  unfold runKeyDestructors
  rw [if_pos h]
  cases c
  · simp only [Bool.false_eq_true, if_false]
    rw [runKeyDestructors_unset _ _ _ _ (by simp [notifyStopping_eq]), notifyStopping_eq]
  · simp only [if_true]
    rw [runKeyDestructors_unset _ _ _ _ (by simp [notifyStopping_eq]), notifyStopping_eq]
    congr 1
    funext t
    by_cases ht : t = self <;> simp [ht]

/-- The teardown leaves the members of the unit alone. -/
theorem runKeyDestructors_thread (c : Bool) (n : Nat) (self : PthreadT) (w : World) :
    (runKeyDestructors c n self w).thread = w.thread := by
  induction n generalizing w with
  | zero => rfl
  | succ n ih =>
    unfold runKeyDestructors
    split
    · rw [ih, notifyStopping_eq]
      cases c <;> rfl
    · rfl

/-- The teardown adds neither a state assignment nor a
`notifyExecutionStarted` call to the trace. -/
theorem runKeyDestructors_trace (c : Bool) (n : Nat) (self : PthreadT) (w : World) :
    ∃ rest, (runKeyDestructors c n self w).trace = w.trace ++ rest ∧ stateChanges rest = [] ∧
      startedCalls rest = [] := by
  cases hk : w._cleanupKey self with
  | false => exact ⟨[], by simp [runKeyDestructors_unset c n self w hk, stateChanges, startedCalls]⟩
  | true =>
    cases n with
    | zero => exact ⟨[], by simp [runKeyDestructors, stateChanges, startedCalls]⟩
    | succ n =>
      rw [runKeyDestructors_set c (n + 1) self w hk (by omega)]
      refine ⟨_, by simp only [List.append_assoc]; rfl, ?_, ?_⟩
      · simp [stateChanges, stateChanges_append]
      · simp [startedCalls, startedCalls_append]

/-! ## The child entry routine, step by step -/

/-- `exit()` called from the unit's own thread: the assertion holds, the state
is assigned and `pthread_exit` ends the thread. -/
theorem exit_from_own_thread (abortOnCheck : Bool) (lib : PthreadLib) (self : PthreadT)
    (retVal : Nat) (w : World) (h : Thread.isCurrent self w = true) :
    Thread.exit abortOnCheck lib self retVal w =
      (Outcome.threadExited retVal,
        runKeyDestructors lib.clearsFirst lib.iterations self
          (emit (Event.pthreadExit self retVal) (setState State.STATE_STOPPING w))) := by
  simp [Thread.exit, EQASSERTINFO, h, pthread_exit]

/-- The world after the first half of the child entry routine when `init()`
succeeds. -/
theorem runChildEntry_ok (user : UserCode) (self : PthreadT) (w : World)
    (hinit : user.init = true) :
    Thread._runChildEntry user self w =
      (true,
        { thread := { w.thread with
            _threadID := self, _state := State.STATE_RUNNING, _syncChild := false }
          _listeners := w._listeners
          _cleanupKey := fun t => if t = self then true else w._cleanupKey t
          trace := w.trace ++ [Event.callInit,
            Event.stateWrite w.thread._state State.STATE_RUNNING,
            Event.pthreadSetspecific self true] ++
            w._listeners.map Event.notifyExecutionStarted ++ [Event.syncChildUnset] }) := by
  unfold Thread._runChildEntry Thread._notifyStarted
  simp only [hinit, Bool.not_true, Bool.false_eq_true, if_false, foldl_emit]
  simp [pthread_setspecific, emit, setState]

/-- The whole child entry routine when `init()` succeeds: the world it leaves
and the fact that the thread has ended. -/
theorem runChild_ok (abortOnCheck : Bool) (lib : PthreadLib) (user : UserCode) (self : PthreadT)
    (w : World) (hlib : 0 < lib.iterations) (hinit : user.init = true) :
    (Thread._runChild abortOnCheck lib user self w).2.trace =
        w.trace ++ ([Event.callInit, Event.stateWrite w.thread._state State.STATE_RUNNING,
          Event.pthreadSetspecific self true] ++
          w._listeners.map Event.notifyExecutionStarted ++
          [Event.syncChildUnset, Event.callRun] ++ runTail self user.run ++
          [Event.callNotifyStopping self, Event.pthreadSetspecific self false] ++
          w._listeners.map Event.notifyExecutionStopping) ∧
      (Thread._runChild abortOnCheck lib user self w).2._cleanupKey self = false ∧
      (Thread._runChild abortOnCheck lib user self w).2._listeners = w._listeners ∧
      (Thread._runChild abortOnCheck lib user self w).1 ≠ Outcome.returned () ∧
      (Thread._runChild abortOnCheck lib user self w).1 ≠ Outcome.blocked ∧
      (Thread._runChild abortOnCheck lib user self w).1 ≠ Outcome.aborted := by
  unfold Thread._runChild
  rw [runChildEntry_ok user self w hinit]
  unfold Thread._runChildBody
  simp only [Bool.not_true, Bool.false_eq_true, if_false]
  cases hr : user.run with
  | returns result =>
    simp only []
    rw [exit_from_own_thread _ _ _ _ _ (by simp [Thread.isCurrent])]
    simp only []
    rw [runKeyDestructors_set _ _ _ _ (by simp) hlib]
    simp [runTail]
  | exits result =>
    simp only []
    rw [exit_from_own_thread _ _ _ _ _ (by simp [Thread.isCurrent])]
    rw [runKeyDestructors_set _ _ _ _ (by simp) hlib]
    simp [runTail]
  | canceled =>
    simp only [actOnCancel]
    rw [runKeyDestructors_set _ _ _ _ (by simp) hlib]
    simp [runTail]

/-- Registering a list of listeners appends it to `_listeners`. -/
theorem addListener_foldl (ls : List Listener) (w : World) :
    ls.foldl (fun acc l => Thread.addListener l acc) w =
      { w with _listeners := w._listeners ++ ls } := by
  induction ls generalizing w with
  | nil => simp
  | cons l ls ih =>
    rw [List.foldl_cons, ih]
    simp [Thread.addListener]

/-- When `init()` succeeds, the trace of the child entry routine up to the
call of `run()`, and no `notifyExecutionStarted` call after it. -/
theorem runChild_until_run (abortOnCheck : Bool) (lib : PthreadLib) (user : UserCode)
    (self : PthreadT) (w : World) (hinit : user.init = true) :
    ∃ after, (Thread._runChild abortOnCheck lib user self w).2.trace =
        w.trace ++ (([Event.callInit, Event.stateWrite w.thread._state State.STATE_RUNNING,
          Event.pthreadSetspecific self true] ++
          w._listeners.map Event.notifyExecutionStarted ++ [Event.syncChildUnset]) ++
          Event.callRun :: after) ∧
      startedCalls after = [] ∧
      ∀ c ∈ stateChanges after, c = (State.STATE_RUNNING, State.STATE_STOPPING) := by
  unfold Thread._runChild
  rw [runChildEntry_ok user self w hinit]
  unfold Thread._runChildBody
  simp only [Bool.not_true, Bool.false_eq_true, if_false]
  cases hr : user.run with
  | returns result =>
    simp only []
    rw [exit_from_own_thread _ _ _ _ _ (by simp [Thread.isCurrent])]
    simp only []
    obtain ⟨rest, h1, h2, h3⟩ := runKeyDestructors_trace lib.clearsFirst lib.iterations self
      (emit (Event.pthreadExit self result) (setState State.STATE_STOPPING (emit Event.callRun
        { thread := { w.thread with
            _threadID := self, _state := State.STATE_RUNNING, _syncChild := false }
          _listeners := w._listeners
          _cleanupKey := fun t => if t = self then true else w._cleanupKey t
          trace := w.trace ++ [Event.callInit,
            Event.stateWrite w.thread._state State.STATE_RUNNING,
            Event.pthreadSetspecific self true] ++
            w._listeners.map Event.notifyExecutionStarted ++ [Event.syncChildUnset] })))
    refine ⟨[Event.stateWrite State.STATE_RUNNING State.STATE_STOPPING,
      Event.pthreadExit self result] ++ rest, ?_, ?_, ?_⟩
    · rw [h1]; simp
    · simp [startedCalls_append, startedCalls, h3]
    · simp [stateChanges_append, stateChanges, h2]
  | exits result =>
    simp only []
    rw [exit_from_own_thread _ _ _ _ _ (by simp [Thread.isCurrent])]
    obtain ⟨rest, h1, h2, h3⟩ := runKeyDestructors_trace lib.clearsFirst lib.iterations self
      (emit (Event.pthreadExit self result) (setState State.STATE_STOPPING (emit Event.callRun
        { thread := { w.thread with
            _threadID := self, _state := State.STATE_RUNNING, _syncChild := false }
          _listeners := w._listeners
          _cleanupKey := fun t => if t = self then true else w._cleanupKey t
          trace := w.trace ++ [Event.callInit,
            Event.stateWrite w.thread._state State.STATE_RUNNING,
            Event.pthreadSetspecific self true] ++
            w._listeners.map Event.notifyExecutionStarted ++ [Event.syncChildUnset] })))
    refine ⟨[Event.stateWrite State.STATE_RUNNING State.STATE_STOPPING,
      Event.pthreadExit self result] ++ rest, ?_, ?_, ?_⟩
    · rw [h1]; simp
    · simp [startedCalls_append, startedCalls, h3]
    · simp [stateChanges_append, stateChanges, h2]
  | canceled =>
    simp only [actOnCancel]
    obtain ⟨rest, h1, h2, h3⟩ := runKeyDestructors_trace lib.clearsFirst lib.iterations self
      (emit (Event.pthreadCanceled self) (emit Event.callRun
        { thread := { w.thread with
            _threadID := self, _state := State.STATE_RUNNING, _syncChild := false }
          _listeners := w._listeners
          _cleanupKey := fun t => if t = self then true else w._cleanupKey t
          trace := w.trace ++ [Event.callInit,
            Event.stateWrite w.thread._state State.STATE_RUNNING,
            Event.pthreadSetspecific self true] ++
            w._listeners.map Event.notifyExecutionStarted ++ [Event.syncChildUnset] }))
    refine ⟨[Event.pthreadCanceled self] ++ rest, ?_, ?_, ?_⟩
    · rw [h1]; simp
    · simp [startedCalls_append, startedCalls, h3]
    · simp [stateChanges_append, stateChanges, h2]

/-- The whole of `cancel()` called from a thread other than the unit's own:
the assertion holds, the state is assigned, the request is issued and the
`EQUNREACHABLE` mark behind `pthread_cancel` is reached. -/
theorem cancel_from_other_thread (abortOnCheck : Bool) (self : PthreadT) (w : World)
    (h : Thread.isCurrent self w = false) :
    Thread.cancel abortOnCheck self w =
      EQUNREACHABLE abortOnCheck Site.inCancel
        (emit (Event.pthreadCancel w.thread._threadID) (setState State.STATE_STOPPING w)) := by
  simp [Thread.cancel, EQASSERTINFO, h]

/-- From `STATE_STOPPED`, the trace of `start` continues the trace of its
retry loop, and when `init()` succeeds the only state change behind the loop
is the one from Starting to Running. -/
theorem start_trace_from_stopped (env : Env) (user : UserCode) (w : World)
    (h : w.thread._state = State.STATE_STOPPED) :
    ∃ rest, (Thread.start env user w).2.trace =
      (Thread.createLoop env 10 0 (setState State.STATE_STARTING w)).2.trace ++ rest ∧
      (user.init = true →
        ∀ c ∈ stateChanges rest, c = (State.STATE_STARTING, State.STATE_RUNNING)) := by
  obtain ⟨_, _, _, hstate, _, _⟩ := createLoop_spec env 10 0 (setState State.STATE_STARTING w)
  unfold Thread.start
  rw [if_neg (by simp [h])]
  rcases hcl : Thread.createLoop env 10 0 (setState State.STATE_STARTING w) with ⟨ex, w2⟩
  rw [hcl] at hstate
  simp only [setState_thread] at hstate
  cases ex with
  | returnedFalse => exact ⟨[], by simp [hcl, stateChanges]⟩
  | created =>
    simp only [hcl]
    cases hs : Thread.syncChildSet (Thread._runChildEntry user env.childTid w2).2 with
    | none =>
      refine ⟨_, runChildEntry_trace user env.childTid w2, ?_⟩
      intro hinit c hc
      simpa [hinit, stateChanges, stateChanges_append, hstate] using hc
    | some w4 =>
      have h4 : w4 = emit Event.syncChildSet
          { (Thread._runChildEntry user env.childTid w2).2 with
            thread := { (Thread._runChildEntry user env.childTid w2).2.thread with
              _syncChild := true } } := by
        unfold Thread.syncChildSet at hs
        split at hs
        · exact absurd hs (by simp)
        · exact (Option.some.inj hs).symm
      simp only [setState_trace, h4, emit_trace, runChildEntry_trace, List.append_assoc]
      refine ⟨_, rfl, ?_⟩
      intro hinit c hc
      simp only [hinit, if_true, runChildEntry_ok user env.childTid w2 hinit, emit_thread]
        at hc
      simpa [stateChanges, stateChanges_append, hstate] using hc
  | conditionFalse =>
    simp only [hcl]
    cases hs : Thread.syncChildSet w2 with
    | none => exact ⟨[], by simp [stateChanges]⟩
    | some w3 =>
      have h3 : w3 = emit Event.syncChildSet
          { w2 with thread := { w2.thread with _syncChild := true } } := by
        unfold Thread.syncChildSet at hs
        split at hs
        · exact absurd hs (by simp)
        · exact (Option.some.inj hs).symm
      simp only [setState_trace, h3, emit_trace, List.append_assoc]
      refine ⟨_, rfl, ?_⟩
      intro _ c hc
      simpa [stateChanges, hstate] using hc

/-- Every state change made by `exit()` leads from the state it was called in
to Stopping. -/
theorem exit_changes (abortOnCheck : Bool) (lib : PthreadLib) (self : PthreadT) (retVal : Nat)
    (w : World) :
    ∀ c ∈ stateChanges (newEvents w (Thread.exit abortOnCheck lib self retVal w).2),
      c = (w.thread._state, State.STATE_STOPPING) := by
  cases hc : Thread.isCurrent self w with
  | true =>
    rw [exit_from_own_thread _ _ _ _ _ hc]
    obtain ⟨rest, h1, h2, -⟩ := runKeyDestructors_trace lib.clearsFirst lib.iterations self
      (emit (Event.pthreadExit self retVal) (setState State.STATE_STOPPING w))
    rw [newEvents_append w _ ([Event.stateWrite w.thread._state State.STATE_STOPPING,
      Event.pthreadExit self retVal] ++ rest) (by rw [h1]; simp)]
    intro c hcm
    simp only [stateChanges_append, h2, List.append_nil, stateChanges] at hcm
    split at hcm <;> simp_all
  | false =>
    cases abortOnCheck with
    | true =>
      rw [newEvents_append w _ [Event.assertFailed Site.inExit]
        (by simp [Thread.exit, EQASSERTINFO, hc])]
      simp [stateChanges]
    | false =>
      obtain ⟨rest, h1, h2, -⟩ := runKeyDestructors_trace lib.clearsFirst lib.iterations self
        (emit (Event.pthreadExit self retVal)
          (setState State.STATE_STOPPING (emit (Event.assertFailed Site.inExit) w)))
      rw [newEvents_append w _ ([Event.assertFailed Site.inExit,
        Event.stateWrite w.thread._state State.STATE_STOPPING,
        Event.pthreadExit self retVal] ++ rest)
        (by simp [Thread.exit, EQASSERTINFO, hc, pthread_exit, h1])]
      intro c hcm
      simp only [stateChanges_append, h2, List.append_nil, stateChanges] at hcm
      split at hcm <;> simp_all

/-- Every state change made by `cancel()` leads from the state it was called
in to Stopping. -/
theorem cancel_changes (abortOnCheck : Bool) (self : PthreadT) (w : World) :
    ∀ c ∈ stateChanges (newEvents w (Thread.cancel abortOnCheck self w).2),
      c = (w.thread._state, State.STATE_STOPPING) := by
  cases hc : Thread.isCurrent self w with
  | false =>
    rw [newEvents_append w _ [Event.stateWrite w.thread._state State.STATE_STOPPING,
      Event.pthreadCancel w.thread._threadID, Event.unreachable Site.inCancel]
      (by cases abortOnCheck <;> simp [cancel_from_other_thread _ _ _ hc, EQUNREACHABLE])]
    intro c hcm
    simp only [stateChanges] at hcm
    split at hcm <;> simp_all
  | true =>
    cases abortOnCheck with
    | true =>
      rw [newEvents_append w _ [Event.assertFailed Site.inCancel]
        (by simp [Thread.cancel, EQASSERTINFO, hc])]
      simp [stateChanges]
    | false =>
      rw [newEvents_append w _ [Event.assertFailed Site.inCancel,
        Event.stateWrite w.thread._state State.STATE_STOPPING,
        Event.pthreadCancel w.thread._threadID, Event.unreachable Site.inCancel]
        (by simp [Thread.cancel, EQASSERTINFO, hc, EQUNREACHABLE])]
      intro c hcm
      simp only [stateChanges] at hcm
      split at hcm <;> simp_all

/-- Every state change made by `join()` leads from the state it was called in
to Stopped. -/
theorem join_changes (env : Env) (self : PthreadT) (wantResult : Bool) (w : World) :
    ∀ c ∈ stateChanges (newEvents w (Thread.join env self wantResult w).2),
      c = (w.thread._state, State.STATE_STOPPED) := by
  unfold Thread.join
  by_cases hs : w.thread._state = State.STATE_STOPPED
  · simp [hs, newEvents, stateChanges]
  · rw [if_neg hs]
    cases hc : Thread.isCurrent self w with
    | true => simp [newEvents, stateChanges]
    | false =>
      by_cases he : env.joinError = 0
      · rw [newEvents_append w _ [Event.pthreadJoin w.thread._threadID env.joinError,
          Event.stateWrite w.thread._state State.STATE_STOPPED] (by simp [he])]
        intro c hcm
        simp only [stateChanges] at hcm
        split at hcm <;> simp_all
      · rw [newEvents_append w _ [Event.pthreadJoin w.thread._threadID env.joinError]
          (by simp [he])]
        simp [stateChanges]

/-- The only state change made by the first part of `start()` is the one from
Stopped to Starting. -/
theorem startHead_changes (env : Env) (w : World) :
    ∀ c ∈ stateChanges (newEvents w (Thread.startHead env w).2),
      c = (State.STATE_STOPPED, State.STATE_STARTING) := by
  unfold Thread.startHead
  by_cases hs : w.thread._state = State.STATE_STOPPED
  · rw [if_neg (by simp [hs])]
    obtain ⟨r0, h0, h0s, -⟩ := createLoop_spec env 10 0 (setState State.STATE_STARTING w)
    have ht : ∀ w2, w2.trace = (Thread.createLoop env 10 0
        (setState State.STATE_STARTING w)).2.trace →
        ∀ c ∈ stateChanges (newEvents w w2),
          c = (State.STATE_STOPPED, State.STATE_STARTING) := by
      intro w2 hw2 c hc
      rw [newEvents_append w w2
        ([Event.stateWrite State.STATE_STOPPED State.STATE_STARTING] ++ r0)
        (by rw [hw2, h0]; simp [hs])] at hc
      simpa [stateChanges_append, stateChanges, h0s] using hc
    rcases hcl : Thread.createLoop env 10 0 (setState State.STATE_STARTING w) with ⟨ex, w2⟩
    rw [hcl] at ht
    cases ex <;> exact ht w2 rfl
  · simp [hs, newEvents, stateChanges]

/-- Every state change made by the first half of the child entry routine with
an `init()` that succeeds leads from the state it found to Running. -/
theorem runChildEntry_changes (user : UserCode) (self : PthreadT) (w : World)
    (hinit : user.init = true) :
    ∀ c ∈ stateChanges (newEvents w (Thread._runChildEntry user self w).2),
      c = (w.thread._state, State.STATE_RUNNING) := by
  intro c hc
  rw [newEvents_append w _ _ (runChildEntry_trace user self w)] at hc
  simp only [hinit, if_true, stateChanges_append, stateChanges, stateChanges_map_started] at hc
  split at hc <;> simp_all

/-- Every state change made by the last part of `start()` leads from the
state it found to Running. -/
theorem startTail_changes (w : World) :
    ∀ c ∈ stateChanges (newEvents w (Thread.startTail w).2),
      c = (w.thread._state, State.STATE_RUNNING) := by
  unfold Thread.startTail Thread.syncChildSet
  cases hl : w.thread._syncChild with
  | true => simp [newEvents, stateChanges]
  | false =>
    intro c hc
    rw [newEvents_append w _ [Event.syncChildSet,
      Event.stateWrite w.thread._state State.STATE_RUNNING] (by simp)] at hc
    simp only [stateChanges] at hc
    split at hc <;> simp_all

/-- `exit()` adds to the trace, changes the state to Stopping at most, and
does not return to its caller. -/
theorem exit_spec (abortOnCheck : Bool) (lib : PthreadLib) (self : PthreadT) (retVal : Nat)
    (w : World) :
    ∃ rest, (Thread.exit abortOnCheck lib self retVal w).2.trace = w.trace ++ rest ∧
      (∀ c ∈ stateChanges rest, c = (w.thread._state, State.STATE_STOPPING)) ∧
      (Thread.exit abortOnCheck lib self retVal w).1 ≠ Outcome.returned () := by
  have hsplit : ∀ old : State, ∀ c ∈ stateChanges [Event.stateWrite old State.STATE_STOPPING],
      c = (old, State.STATE_STOPPING) := by
    intro old c hc
    simp only [stateChanges] at hc
    split at hc <;> simp_all
  cases hc : Thread.isCurrent self w with
  | true =>
    rw [exit_from_own_thread _ _ _ _ _ hc]
    obtain ⟨rest, h1, h2, -⟩ := runKeyDestructors_trace lib.clearsFirst lib.iterations self
      (emit (Event.pthreadExit self retVal) (setState State.STATE_STOPPING w))
    refine ⟨[Event.stateWrite w.thread._state State.STATE_STOPPING,
      Event.pthreadExit self retVal] ++ rest, by rw [h1]; simp, ?_, by simp⟩
    intro c hcm
    have h3 : stateChanges ([Event.stateWrite w.thread._state State.STATE_STOPPING,
        Event.pthreadExit self retVal] ++ rest) =
        stateChanges [Event.stateWrite w.thread._state State.STATE_STOPPING] := by
      simp [stateChanges_append, stateChanges, h2]
    rw [h3] at hcm
    exact hsplit _ c hcm
  | false =>
    cases abortOnCheck with
    | true =>
      exact ⟨[Event.assertFailed Site.inExit], by simp [Thread.exit, EQASSERTINFO, hc],
        by simp [stateChanges], by simp [Thread.exit, EQASSERTINFO, hc]⟩
    | false =>
      obtain ⟨rest, h1, h2, -⟩ := runKeyDestructors_trace lib.clearsFirst lib.iterations self
        (emit (Event.pthreadExit self retVal)
          (setState State.STATE_STOPPING (emit (Event.assertFailed Site.inExit) w)))
      refine ⟨[Event.assertFailed Site.inExit,
        Event.stateWrite w.thread._state State.STATE_STOPPING,
        Event.pthreadExit self retVal] ++ rest,
        by simp [Thread.exit, EQASSERTINFO, hc, pthread_exit, h1], ?_,
        by simp [Thread.exit, EQASSERTINFO, hc, pthread_exit]⟩
      intro c hcm
      have h3 : stateChanges ([Event.assertFailed Site.inExit,
          Event.stateWrite w.thread._state State.STATE_STOPPING,
          Event.pthreadExit self retVal] ++ rest) =
          stateChanges [Event.stateWrite w.thread._state State.STATE_STOPPING] := by
        simp [stateChanges_append, stateChanges, h2]
      rw [h3] at hcm
      exact hsplit _ c hcm

/-- Every state change made by the second half of the child entry routine
leads from the state it found to Stopping. -/
theorem runChildBody_changes (abortOnCheck : Bool) (lib : PthreadLib) (user : UserCode)
    (self : PthreadT) (initOk : Bool) (w : World) :
    ∀ c ∈ stateChanges
        (newEvents w (Thread._runChildBody abortOnCheck lib user self initOk w).2),
      c = (w.thread._state, State.STATE_STOPPING) := by
  unfold Thread._runChildBody
  cases initOk with
  | false =>
    obtain ⟨rest, h1, h2, -⟩ := runKeyDestructors_trace lib.clearsFirst lib.iterations self
      (emit (Event.pthreadExit self 0) w)
    intro c hc
    rw [newEvents_append w _ ([Event.pthreadExit self 0] ++ rest)
      (by simp [pthread_exit, h1])] at hc
    simp [stateChanges_append, stateChanges, h2] at hc
  | true =>
    simp only [Bool.not_true, Bool.false_eq_true, if_false]
    obtain ⟨rest, h1, h2, -⟩ := runKeyDestructors_trace lib.clearsFirst lib.iterations self
      (emit (Event.pthreadCanceled self) (emit Event.callRun w))
    have hexit : ∀ result, ∀ c ∈ stateChanges (newEvents w
        (Thread.exit abortOnCheck lib self result (emit Event.callRun w)).2),
        c = (w.thread._state, State.STATE_STOPPING) := by
      intro result c hc
      obtain ⟨r, hr1, hr2, -⟩ := exit_spec abortOnCheck lib self result (emit Event.callRun w)
      rw [newEvents_append w _ ([Event.callRun] ++ r) (by rw [hr1]; simp)] at hc
      simp only [stateChanges_append, stateChanges, List.nil_append] at hc
      exact hr2 c hc
    cases hrun : user.run with
    | canceled =>
      intro c hc
      simp only [actOnCancel] at hc
      rw [newEvents_append w _ ([Event.callRun, Event.pthreadCanceled self] ++ rest)
        (by rw [h1]; simp)] at hc
      simp [stateChanges_append, stateChanges, h2] at hc
    | exits result => exact hexit result
    | returns result =>
      simp only []
      have hne := (exit_spec abortOnCheck lib self result (emit Event.callRun w)).choose_spec.2.2
      have hx := hexit result
      rcases hres : Thread.exit abortOnCheck lib self result (emit Event.callRun w) with ⟨o, w2⟩
      rw [hres] at hne hx
      cases o with
      | returned u => exact absurd rfl hne
      | threadExited v => exact hx
      | threadCanceled => exact hx
      | aborted => exact hx
      | blocked => exact hx

/-! ## C1: `start()` is only valid from Stopped -/

/-- C1. For a unit whose state is not Stopped, `Thread::start()` returns false
and leaves the whole world as it was (no state assignment, no
`pthread_create`); from Stopped the first actions of `start()` are the
assignment of Starting and a `pthread_create` attempt. -/
theorem C1_start_only_from_stopped (env : Env) (user : UserCode) (w : World) :
    (w.thread._state ≠ State.STATE_STOPPED →
      Thread.start env user w = (Outcome.returned false, w)) ∧
    (w.thread._state = State.STATE_STOPPED →
      ∃ rest, (Thread.start env user w).2.trace =
        w.trace ++ Event.stateWrite State.STATE_STOPPED State.STATE_STARTING ::
          Event.pthreadCreate (env.createError 0) :: rest) := by
  constructor
  · intro h
    simp [Thread.start, h]
  · intro h
    obtain ⟨r1, h1, -⟩ := start_trace_from_stopped env user w h
    obtain ⟨r2, h2⟩ := createLoop_first env 9 0 (setState State.STATE_STARTING w)
    exact ⟨r2 ++ r1, by rw [h1, h2]; simp [h]⟩

/-- C1 at a Running unit and at a Stopped unit. -/
theorem C1_start_only_from_stopped_witness :
    Thread.start envOk userOk (worldIn State.STATE_RUNNING) =
      (Outcome.returned false, worldIn State.STATE_RUNNING) ∧
    ∃ rest, (Thread.start envOk userOk (worldIn State.STATE_STOPPED)).2.trace =
      (worldIn State.STATE_STOPPED).trace ++
        Event.stateWrite State.STATE_STOPPED State.STATE_STARTING ::
          Event.pthreadCreate (envOk.createError 0) :: rest :=
  ⟨(C1_start_only_from_stopped envOk userOk (worldIn State.STATE_RUNNING)).1 (by decide),
   (C1_start_only_from_stopped envOk userOk (worldIn State.STATE_STOPPED)).2 rfl⟩

/-! ## C2: `join()` from the unit's own thread -/

/-- C2. In any state, `Thread::join()` called from the unit's own thread
returns false, stores nothing through the result pointer and leaves the whole
world as it was: no `pthread_join`, no state assignment. -/
theorem C2_join_self_rejected (env : Env) (self : PthreadT) (wantResult : Bool) (w : World)
    (h : Thread.isCurrent self w = true) :
    Thread.join env self wantResult w = ((false, none), w) := by
  unfold Thread.join
  by_cases hs : w.thread._state = State.STATE_STOPPED
  · simp [hs]
  · simp [hs, h]

/-- C2 at a Running unit joined from its own thread 7. -/
theorem C2_join_self_rejected_witness :
    Thread.isCurrent 7 (worldIn State.STATE_RUNNING) = true ∧
    Thread.join envOk 7 true (worldIn State.STATE_RUNNING) =
      ((false, none), worldIn State.STATE_RUNNING) :=
  ⟨by decide, C2_join_self_rejected envOk 7 true (worldIn State.STATE_RUNNING) (by decide)⟩

/-! ## C3: `exit()` from a thread other than the unit's own -/

/-- C3, as stated, fails in a build whose checks are not fatal: `exit(0)`
called by thread 3 on the Running unit of thread 7 records the failed
assertion, assigns Stopping and ends the calling thread through
`pthread_exit`. -/
theorem C3_exit_from_other_thread_counterexample :
    Thread.isCurrent 3 (worldIn State.STATE_RUNNING) = false ∧
    (Thread.exit false libPosix 3 0 (worldIn State.STATE_RUNNING)).2.thread._state =
      State.STATE_STOPPING ∧
    (Thread.exit false libPosix 3 0 (worldIn State.STATE_RUNNING)).1 = Outcome.threadExited 0 ∧
    (Thread.exit false libPosix 3 0 (worldIn State.STATE_RUNNING)).2.trace =
      [Event.assertFailed Site.inExit,
        Event.stateWrite State.STATE_RUNNING State.STATE_STOPPING, Event.pthreadExit 3 0] := by
  decide

/-- C3, amended. `Thread::exit(result)` called from a thread other than the
unit's own fails the assertion of `exit`.  In a build whose checks are fatal the
program stops there: nothing but the failed assertion is added to the world, so
the state is not assigned and `pthread_exit` is not called.  In a build whose
checks are not fatal the call goes on: the state becomes Stopping and the
calling thread is ended by `pthread_exit`. -/
theorem C3_exit_from_other_thread (lib : PthreadLib) (self : PthreadT) (retVal : Nat)
    (w : World) (h : Thread.isCurrent self w = false) :
    Thread.exit true lib self retVal w =
      (Outcome.aborted, emit (Event.assertFailed Site.inExit) w) ∧
    (Thread.exit false lib self retVal w).1 = Outcome.threadExited retVal ∧
    (Thread.exit false lib self retVal w).2.thread._state = State.STATE_STOPPING := by
  refine ⟨?_, ?_, ?_⟩
  · simp [Thread.exit, EQASSERTINFO, h]
  · simp [Thread.exit, EQASSERTINFO, h, pthread_exit]
  · simp [Thread.exit, EQASSERTINFO, h, pthread_exit, runKeyDestructors_thread]

/-- C3, amended, at a Running unit of thread 7 and the calling thread 3. -/
theorem C3_exit_from_other_thread_witness :
    Thread.isCurrent 3 (worldIn State.STATE_RUNNING) = false ∧
    Thread.exit true libPosix 3 0 (worldIn State.STATE_RUNNING) =
      (Outcome.aborted, emit (Event.assertFailed Site.inExit) (worldIn State.STATE_RUNNING)) :=
  ⟨by decide, (C3_exit_from_other_thread libPosix 3 0 (worldIn State.STATE_RUNNING) (by decide)).1⟩

/-! ## C4: `cancel()` from the unit's own thread -/

/-- C4, as stated, fails in a build whose checks are not fatal: `cancel()`
called by thread 7 on its own Running unit records the failed assertion,
assigns Stopping and issues `pthread_cancel` against thread 7. -/
theorem C4_cancel_from_own_thread_counterexample :
    Thread.isCurrent 7 (worldIn State.STATE_RUNNING) = true ∧
    (Thread.cancel false 7 (worldIn State.STATE_RUNNING)).2.thread._state =
      State.STATE_STOPPING ∧
    Event.pthreadCancel 7 ∈ (Thread.cancel false 7 (worldIn State.STATE_RUNNING)).2.trace := by
  decide

/-- C4, amended. `Thread::cancel()` called from the unit's own thread fails
the assertion of `cancel`.  In a build whose checks are fatal the program stops
there: nothing but the failed assertion is added to the world, so the state is
not assigned and no cancellation request is issued.  In a build whose checks
are not fatal the call goes on: the state becomes Stopping and
`pthread_cancel` is issued against the unit's thread. -/
theorem C4_cancel_from_own_thread (self : PthreadT) (w : World)
    (h : Thread.isCurrent self w = true) :
    Thread.cancel true self w =
      (Outcome.aborted, emit (Event.assertFailed Site.inCancel) w) ∧
    (Thread.cancel false self w).2.thread._state = State.STATE_STOPPING ∧
    Event.pthreadCancel w.thread._threadID ∈ (Thread.cancel false self w).2.trace := by
  refine ⟨?_, ?_, ?_⟩
  · simp [Thread.cancel, EQASSERTINFO, h]
  · simp [Thread.cancel, EQASSERTINFO, h, EQUNREACHABLE]
  · simp [Thread.cancel, EQASSERTINFO, h, EQUNREACHABLE]

/-- C4, amended, at a Running unit cancelled from its own thread 7. -/
theorem C4_cancel_from_own_thread_witness :
    Thread.isCurrent 7 (worldIn State.STATE_RUNNING) = true ∧
    Thread.cancel true 7 (worldIn State.STATE_RUNNING) =
      (Outcome.aborted, emit (Event.assertFailed Site.inCancel) (worldIn State.STATE_RUNNING)) :=
  ⟨by decide, (C4_cancel_from_own_thread 7 (worldIn State.STATE_RUNNING) (by decide)).1⟩

/-! ## C5: the teardown hook -/

/-- C5. For a unit whose `init()` succeeded, whichever of a return from
`run()`, a call of `exit()` inside `run()` or a cancellation acted upon inside
`run()` ends the child entry routine, the teardown hook `_notifyStopping` is
entered exactly once, on the unit's thread; `notifyExecutionStopping` is called
once per registered listener, in registration order; the cleanup key of the
thread is NULL afterwards, and a further destructor pass of the library changes
nothing. -/
theorem C5_teardown_hook_runs_once (abortOnCheck : Bool) (lib : PthreadLib) (user : UserCode)
    (self : PthreadT) (w : World) (hlib : 0 < lib.iterations) (hinit : user.init = true) :
    hookCalls (newEvents w (Thread._runChild abortOnCheck lib user self w).2) = [self] ∧
    stoppingCalls (newEvents w (Thread._runChild abortOnCheck lib user self w).2) =
      w._listeners ∧
    (Thread._runChild abortOnCheck lib user self w).2._cleanupKey self = false ∧
    runKeyDestructors lib.clearsFirst lib.iterations self
        (Thread._runChild abortOnCheck lib user self w).2 =
      (Thread._runChild abortOnCheck lib user self w).2 := by
  obtain ⟨ht, hk, -, -, -, -⟩ := runChild_ok abortOnCheck lib user self w hlib hinit
  rw [newEvents_append w _ _ ht]
  refine ⟨?_, ?_, hk, runKeyDestructors_unset _ _ _ _ hk⟩
  · cases user.run <;> simp [hookCalls_append, hookCalls, runTail]
  · cases user.run <;> simp [stoppingCalls_append, stoppingCalls, runTail]

/-- C5 at a cancelled unit on thread 7 with the listeners 1 and 2. -/
theorem C5_teardown_hook_runs_once_witness :
    hookCalls (newEvents (worldIn State.STATE_STARTING)
      (Thread._runChild true libPosix userCanceled 7 (worldIn State.STATE_STARTING)).2) = [7] ∧
    stoppingCalls (newEvents (worldIn State.STATE_STARTING)
      (Thread._runChild true libPosix userCanceled 7 (worldIn State.STATE_STARTING)).2) =
      [1, 2] :=
  ⟨(C5_teardown_hook_runs_once true libPosix userCanceled 7 (worldIn State.STATE_STARTING)
      (by decide) rfl).1,
   (C5_teardown_hook_runs_once true libPosix userCanceled 7 (worldIn State.STATE_STARTING)
      (by decide) rfl).2.1⟩

/-! ## C6: the started listeners -/

/-- C6. After the listeners `ls` have been registered through `addListener`
(behind those already registered), the child entry routine of a unit whose
`init()` succeeds calls `notifyExecutionStarted` once per registration, in
registration order, and all of these calls come before the call of `run()`:
the trace splits at the first `run()` call into a part that holds exactly these
notifications and a part that holds none. -/
theorem C6_started_listeners_before_run (abortOnCheck : Bool) (lib : PthreadLib)
    (user : UserCode) (self : PthreadT) (w : World) (ls : List Listener)
    (hinit : user.init = true) :
    startedCalls (newEvents (ls.foldl (fun acc l => Thread.addListener l acc) w)
      (Thread._runChild abortOnCheck lib user self
        (ls.foldl (fun acc l => Thread.addListener l acc) w)).2) = w._listeners ++ ls ∧
    ∃ before after,
      newEvents (ls.foldl (fun acc l => Thread.addListener l acc) w)
        (Thread._runChild abortOnCheck lib user self
          (ls.foldl (fun acc l => Thread.addListener l acc) w)).2 =
        before ++ Event.callRun :: after ∧
      startedCalls before = w._listeners ++ ls ∧ Event.callRun ∉ before ∧
      startedCalls after = [] := by
  obtain ⟨after, ht, ha, -⟩ := runChild_until_run abortOnCheck lib user self
    (ls.foldl (fun acc l => Thread.addListener l acc) w) hinit
  rw [newEvents_append _ _ _ ht]
  have hl : (ls.foldl (fun acc l => Thread.addListener l acc) w)._listeners =
      w._listeners ++ ls := by rw [addListener_foldl]
  refine ⟨?_, _, after, rfl, ?_, ?_, ha⟩
  · simp [startedCalls_append, startedCalls, ha, hl]
  · simp [startedCalls_append, startedCalls, hl]
  · simp

/-- C6 for the listeners 5 and 6 registered behind the listeners 1 and 2. -/
theorem C6_started_listeners_before_run_witness :
    startedCalls (newEvents
      ([5, 6].foldl (fun acc l => Thread.addListener l acc) (worldIn State.STATE_STARTING))
      (Thread._runChild true libPosix userOk 7
        ([5, 6].foldl (fun acc l => Thread.addListener l acc)
          (worldIn State.STATE_STARTING))).2) = [1, 2, 5, 6] :=
  (C6_started_listeners_before_run true libPosix userOk 7 (worldIn State.STATE_STARTING) [5, 6]
    rfl).1

/-! ## C7: the state changes and the cycle -/

/-- C7, as stated, fails: the operations assign their target state without
looking at the current one.  On a unit that ran, exited and was joined, and so
is Stopped again, `cancel()` moves the state from Stopped to Stopping.  When
`init()` fails, the first half of the child entry routine moves the state from
Starting to Stopped.  And when `run()` returns before the caller of `start()`
has made its last assignment, that assignment moves the state from Stopping to
Running.  None of these is an edge of the cycle. -/
theorem C7_state_changes_counterexample :
    (¬ ∀ (op : Op) (w : World), Reachable w →
      ∀ c ∈ stateChanges (newEvents w (op.run w)), cycleEdge c.1 c.2 = true) ∧
    stoppedAgain.thread._state = State.STATE_STOPPED ∧
    stateChanges (newEvents stoppedAgain ((Op.cancel false 1).run stoppedAgain)) =
      [(State.STATE_STOPPED, State.STATE_STOPPING)] ∧
    stateChanges (newEvents ((Op.startHead envOk).run (initialWorld 0))
        ((Op.runChildEntry userFail 7).run ((Op.startHead envOk).run (initialWorld 0)))) =
      [(State.STATE_STARTING, State.STATE_STOPPED)] ∧
    childWentFirst.thread._state = State.STATE_STOPPING ∧
    stateChanges (newEvents childWentFirst (Op.startTail.run childWentFirst)) =
      [(State.STATE_STOPPING, State.STATE_RUNNING)] ∧
    cycleEdge State.STATE_STOPPED State.STATE_STOPPING = false ∧
    cycleEdge State.STATE_STARTING State.STATE_STOPPED = false ∧
    cycleEdge State.STATE_STOPPING State.STATE_RUNNING = false := by
  refine ⟨?_, by decide, by decide, by decide, by decide, by decide, by decide, by decide,
    by decide⟩
  intro h
  have hr : Reachable stoppedAgain :=
    Reachable.step _ _ (Reachable.step _ _ (Reachable.step _ _
      (Reachable.step _ _ (Reachable.step _ _ (Reachable.init 0)))))
  have h1 := h (Op.cancel false 1) stoppedAgain hr
    (State.STATE_STOPPED, State.STATE_STOPPING) (by decide)
  exact absurd h1 (by decide)

/-- C7, amended. Every state change made by a step that is taken at its
place in the lifecycle is an edge of the cycle Stopped, Starting, Running,
Stopping, Stopped: the first part of `start()`, up to its wait for the child
(in any state; it changes the state from Stopped to Starting only); the first
half of the child entry routine, entered in Starting with an `init()` that
succeeds; the last assignment of `start()` while the unit is still Starting or
Running; the second half of the child entry routine, `exit()` and `cancel()` on
a unit that is Running or Stopping; `join()` on a unit that is Stopping or
Stopped. -/
theorem C7_state_changes_in_place (op : Op) (w : World) (h : op.inPlace w = true) :
    ∀ c ∈ stateChanges (newEvents w (op.run w)), cycleEdge c.1 c.2 = true := by
  intro c hc
  have hne := stateChanges_ne _ c hc
  cases op with
  | startHead env =>
    rw [startHead_changes env w c hc]
    rfl
  | runChildEntry user self =>
    simp only [Op.inPlace, Bool.and_eq_true, decide_eq_true_eq] at h
    rw [runChildEntry_changes user self w h.1 c hc, h.2]
    rfl
  | startTail =>
    simp only [Op.inPlace, decide_eq_true_eq] at h
    rw [startTail_changes w c hc] at hne ⊢
    rcases h with h | h
    · rw [h]; rfl
    · exact absurd h hne
  | runChildBody abortOnCheck lib user self initOk =>
    have hb := runChildBody_changes abortOnCheck lib user self initOk w c hc
    cases initOk with
    | false =>
      exfalso
      revert hc
      unfold Op.run Thread._runChildBody
      obtain ⟨rest, h1, h2, -⟩ := runKeyDestructors_trace lib.clearsFirst lib.iterations self
        (emit (Event.pthreadExit self 0) w)
      rw [newEvents_append w _ ([Event.pthreadExit self 0] ++ rest)
        (by simp [pthread_exit, h1])]
      simp [stateChanges_append, stateChanges, h2]
    | true =>
      simp only [Op.inPlace, Bool.not_true, Bool.false_or, decide_eq_true_eq] at h
      rw [hb] at hne ⊢
      rcases h with h | h
      · rw [h]; rfl
      · exact absurd h hne
  | exit abortOnCheck lib self retVal =>
    simp only [Op.inPlace, decide_eq_true_eq] at h
    rw [exit_changes abortOnCheck lib self retVal w c hc] at hne ⊢
    rcases h with h | h
    · rw [h]; rfl
    · exact absurd h hne
  | cancel abortOnCheck self =>
    simp only [Op.inPlace, decide_eq_true_eq] at h
    rw [cancel_changes abortOnCheck self w c hc] at hne ⊢
    rcases h with h | h
    · rw [h]; rfl
    · exact absurd h hne
  | join env self wantResult =>
    simp only [Op.inPlace, decide_eq_true_eq] at h
    rw [join_changes env self wantResult w c hc] at hne ⊢
    rcases h with h | h
    · rw [h]; rfl
    · exact absurd h hne

/-- C7, amended, at `cancel()` called by thread 3 on the Running unit of
thread 7, and at the last assignment of `start()` on a unit whose child has
released `_syncChild` and is still in `run()`. -/
theorem C7_state_changes_in_place_witness :
    ((Op.cancel false 3).inPlace (worldIn State.STATE_RUNNING) = true ∧
      ∀ c ∈ stateChanges (newEvents (worldIn State.STATE_RUNNING)
          ((Op.cancel false 3).run (worldIn State.STATE_RUNNING))),
        cycleEdge c.1 c.2 = true) ∧
    (Op.startTail.inPlace startedChild = true ∧
      ∀ c ∈ stateChanges (newEvents startedChild (Op.startTail.run startedChild)),
        cycleEdge c.1 c.2 = true) :=
  ⟨⟨by decide,
    C7_state_changes_in_place (Op.cancel false 3) (worldIn State.STATE_RUNNING) (by decide)⟩,
   ⟨by decide, C7_state_changes_in_place Op.startTail startedChild (by decide)⟩⟩

/-! ## C8: the answer of `join()` -/

/-- C8. When `Thread::join()` returns true the state is Stopped; on a unit
that is already Stopped it returns false and leaves the whole world as it was
(no `pthread_join`); and when `pthread_join` reports an error it returns false
and leaves the members of the unit, the state among them, as they were. -/
theorem C8_join_answer (env : Env) (self : PthreadT) (wantResult : Bool) (w : World) :
    ((Thread.join env self wantResult w).1.1 = true →
      (Thread.join env self wantResult w).2.thread._state = State.STATE_STOPPED) ∧
    (w.thread._state = State.STATE_STOPPED →
      Thread.join env self wantResult w = ((false, none), w)) ∧
    (env.joinError ≠ 0 →
      (Thread.join env self wantResult w).1.1 = false ∧
      (Thread.join env self wantResult w).2.thread = w.thread) := by
  unfold Thread.join
  refine ⟨?_, ?_, ?_⟩
  · intro h
    by_cases hs : w.thread._state = State.STATE_STOPPED
    · simp [hs] at h
    · cases hc : Thread.isCurrent self w
      · by_cases he : env.joinError = 0
        · simp [hs, hc, he]
        · simp [hs, hc, he] at h
      · simp [hs, hc] at h
  · intro hs
    simp [hs]
  · intro he
    by_cases hs : w.thread._state = State.STATE_STOPPED
    · simp [hs]
    · cases hc : Thread.isCurrent self w <;> simp [hs, he]

/-- C8 at a Stopping unit joined from thread 1 with success, at a Stopped
unit, and at a Stopping unit whose `pthread_join` fails. -/
theorem C8_join_answer_witness :
    (Thread.join envOk 1 true (worldIn State.STATE_STOPPING)).1.1 = true ∧
    (Thread.join envOk 1 true (worldIn State.STATE_STOPPING)).2.thread._state =
      State.STATE_STOPPED ∧
    Thread.join envOk 1 true (worldIn State.STATE_STOPPED) =
      ((false, none), worldIn State.STATE_STOPPED) ∧
    (Thread.join envJoinFails 1 true (worldIn State.STATE_STOPPING)).1.1 = false ∧
    (Thread.join envJoinFails 1 true (worldIn State.STATE_STOPPING)).2.thread =
      (worldIn State.STATE_STOPPING).thread :=
  ⟨by decide,
   (C8_join_answer envOk 1 true (worldIn State.STATE_STOPPING)).1 (by decide),
   (C8_join_answer envOk 1 true (worldIn State.STATE_STOPPED)).2.1 rfl,
   ((C8_join_answer envJoinFails 1 true (worldIn State.STATE_STOPPING)).2.2 (by decide)).1,
   ((C8_join_answer envJoinFails 1 true (worldIn State.STATE_STOPPING)).2.2 (by decide)).2⟩

/-! ## C9: `cancel()` from another thread -/

/-- C9. The code at the failing input: `cancel()` called by thread 3 on the
Running unit of thread 7 assigns Stopping, issues `pthread_cancel` and then
reaches the `EQUNREACHABLE` mark of `cancel`; in a build whose checks are fatal
the call does not return but stops the program there. -/
theorem C9_cancel_reaches_unreachable :
    Thread.isCurrent 3 (worldIn State.STATE_RUNNING) = false ∧
    (Thread.cancel false 3 (worldIn State.STATE_RUNNING)).2.trace =
      [Event.stateWrite State.STATE_RUNNING State.STATE_STOPPING, Event.pthreadCancel 7,
        Event.unreachable Site.inCancel] ∧
    (Thread.cancel true 3 (worldIn State.STATE_RUNNING)).2.trace =
      [Event.stateWrite State.STATE_RUNNING State.STATE_STOPPING, Event.pthreadCancel 7,
        Event.unreachable Site.inCancel] ∧
    (Thread.cancel true 3 (worldIn State.STATE_RUNNING)).1 = Outcome.aborted ∧
    (Thread.cancel false 3 (worldIn State.STATE_RUNNING)).1 = Outcome.returned () := by
  decide

end eqBase

namespace eq.server

/-! ## C10: the activation counter -/

/-- The counter stays a 32-bit value. -/
theorem call_active_lt (n : Node) (c : ActivationCall) : (n.call c)._active < 2 ^ 32 := by
  cases c
  · exact Nat.mod_lt _ (by norm_num)
  · exact Nat.mod_lt _ (by norm_num)

/-- After any sequence of calls the counter is the number of activations
minus the number of deactivations, modulo 2^32. -/
theorem calls_active_mod (cs : List ActivationCall) (n : Node) :
    (((Node.calls cs n)._active : Nat) : Int) % 2 ^ 32 =
      ((n._active : Int) + activations cs - deactivations cs) % 2 ^ 32 := by
  induction cs generalizing n with
  | nil => simp [Node.calls, activations, deactivations]
  | cons c cs ih =>
    have hstep : Node.calls (c :: cs) n = Node.calls cs (n.call c) := rfl
    rw [hstep, ih (n.call c)]
    cases c
    · have ha : activations (ActivationCall.activate :: cs) = activations cs + 1 := by
        simp [activations]
      have hd : deactivations (ActivationCall.activate :: cs) = deactivations cs := by
        simp [deactivations]
      rw [ha, hd]
      simp only [Node.call, Node.activate]
      push_cast
      omega
    · have ha : activations (ActivationCall.deactivate :: cs) = activations cs := by
        simp [activations]
      have hd : deactivations (ActivationCall.deactivate :: cs) = deactivations cs + 1 := by
        simp [deactivations]
      rw [ha, hd]
      simp only [Node.call, Node.deactivate]
      push_cast
      omega

/-- A sequence of calls keeps a 32-bit counter a 32-bit value. -/
theorem calls_active_lt (cs : List ActivationCall) (n : Node) (hn : n._active < 2 ^ 32) :
    (Node.calls cs n)._active < 2 ^ 32 := by
  induction cs generalizing n with
  | nil => exact hn
  | cons c cs ih => exact ih (n.call c) (call_active_lt n c)

/-- After `m` calls of `activate()` on a new node, and nothing else: the
sequence has no initial part with more deactivations than activations, `m`
activations, no deactivation, and the counter is `m` modulo 2^32. -/
theorem activate_only (m : Nat) :
    balanced (List.replicate m ActivationCall.activate) ∧
    activations (List.replicate m ActivationCall.activate) = m ∧
    deactivations (List.replicate m ActivationCall.activate) = 0 ∧
    (Node.calls (List.replicate m ActivationCall.activate) Node.new)._active = m % 2 ^ 32 := by
  have ha : ∀ k, activations (List.replicate k ActivationCall.activate) = k := by
    intro k
    unfold activations
    exact List.count_replicate_self _ _
  have hd : ∀ k, deactivations (List.replicate k ActivationCall.activate) = 0 := by
    intro k
    unfold deactivations
    rw [List.count_replicate]
    simp
  refine ⟨?_, ha m, hd m, ?_⟩
  · intro k
    rw [List.take_replicate, hd]
    exact Nat.zero_le _
  · have hm := calls_active_mod (List.replicate m ActivationCall.activate) Node.new
    have hl := calls_active_lt (List.replicate m ActivationCall.activate) Node.new
      (by simp [Node.new])
    have h0 : Node.new._active = 0 := rfl
    rw [ha, hd, h0] at hm
    push_cast at hm
    omega

/-- C10, as stated, fails for the 32-bit counter `uint32_t _active`: after
2^32 calls of `activate()`, a sequence in which no initial part has more
deactivations than activations, the counter has wrapped to 0 and `isActive()`
is false, while the number of activations minus the number of deactivations is
2^32. -/
theorem C10_activation_counter_counterexample :
    balanced (List.replicate (2 ^ 32) ActivationCall.activate) ∧
    activations (List.replicate (2 ^ 32) ActivationCall.activate) -
      deactivations (List.replicate (2 ^ 32) ActivationCall.activate) = 2 ^ 32 ∧
    (Node.calls (List.replicate (2 ^ 32) ActivationCall.activate) Node.new)._active = 0 ∧
    (Node.calls (List.replicate (2 ^ 32) ActivationCall.activate) Node.new).isActive = false := by
  obtain ⟨hb, ha, hd, hc⟩ := activate_only (2 ^ 32)
  rw [Nat.mod_self] at hc
  refine ⟨hb, ?_, hc, ?_⟩
  · rw [ha, hd, Nat.sub_zero]
  · unfold Node.isActive
    rw [hc]
    rfl

/-- C10, amended. For every sequence of `activate()`/`deactivate()` calls on
a new node in which no initial part has more deactivations than activations
and the number of activations minus the number of deactivations is below 2^32,
the counter equals that difference, which is not negative, and `isActive()`
returns true exactly when the difference is greater than 0; `activate();
activate(); deactivate()` leaves `isActive()` true and one more `deactivate()`
makes it false. -/
theorem C10_activation_counter (cs : List ActivationCall) (hb : balanced cs)
    (hlt : activations cs - deactivations cs < 2 ^ 32) :
    (((Node.calls cs Node.new)._active : Nat) : Int) =
      (activations cs : Int) - (deactivations cs : Int) ∧
    (0 : Int) ≤ (activations cs : Int) - (deactivations cs : Int) ∧
    ((Node.calls cs Node.new).isActive = true ↔
      (0 : Int) < (activations cs : Int) - (deactivations cs : Int)) ∧
    (Node.calls [ActivationCall.activate, ActivationCall.activate, ActivationCall.deactivate]
      Node.new).isActive = true ∧
    (Node.calls [ActivationCall.activate, ActivationCall.activate, ActivationCall.deactivate,
      ActivationCall.deactivate] Node.new).isActive = false := by
  have hle : deactivations cs ≤ activations cs := by
    have := hb cs.length
    simpa using this
  have hm := calls_active_mod cs Node.new
  have hl := calls_active_lt cs Node.new (by simp [Node.new])
  have hv : (((Node.calls cs Node.new)._active : Nat) : Int) =
      (activations cs : Int) - (deactivations cs : Int) := by
    have h0 : Node.new._active = 0 := rfl
    rw [h0] at hm
    push_cast at hm
    omega
  refine ⟨hv, by omega, ?_, by decide, by decide⟩
  rw [← hv]
  simp [Node.isActive, Nat.pos_iff_ne_zero]

/-- C10, amended, at the scenario `activate(); activate(); deactivate()`. -/
theorem C10_activation_counter_witness :
    (((Node.calls [ActivationCall.activate, ActivationCall.activate,
      ActivationCall.deactivate] Node.new)._active : Nat) : Int) =
      (activations [ActivationCall.activate, ActivationCall.activate,
        ActivationCall.deactivate] : Int) -
      (deactivations [ActivationCall.activate, ActivationCall.activate,
        ActivationCall.deactivate] : Int) :=
  (C10_activation_counter
    [ActivationCall.activate, ActivationCall.activate, ActivationCall.deactivate]
    (by intro k
        match k with
        | 0 => decide
        | 1 => decide
        | 2 => decide
        | k + 3 => simp [activations, deactivations])
    (by decide)).1

end eq.server

namespace eqBase

/-! ## The retry loop of `start()` -/

theorem createCalls_append (xs ys : List Event) :
    createCalls (xs ++ ys) = createCalls xs + createCalls ys := by
  induction xs with
  | nil => simp [createCalls]
  | cons x xs ih =>
    cases x <;> simp [createCalls, ih]
    omega

@[simp] theorem createCalls_map_started (ls : List Listener) :
    createCalls (ls.map Event.notifyExecutionStarted) = 0 := by
  induction ls with
  | nil => rfl
  | cons l ls ih => simp [createCalls, ih]

@[simp] theorem createCalls_replicate (n e : Nat) :
    createCalls (List.replicate n (Event.pthreadCreate e)) = n := by
  induction n with
  | zero => rfl
  | succ n ih => simp [List.replicate_succ, createCalls, ih]

@[simp] theorem stateChanges_replicate (n e : Nat) :
    stateChanges (List.replicate n (Event.pthreadCreate e)) = [] := by
  induction n with
  | zero => rfl
  | succ n ih => simp [List.replicate_succ, stateChanges, ih]

/-- An attempt that fails with `EAGAIN` while tries are left is followed by
the next attempt. -/
theorem createLoop_eagain (env : Env) (n attempt : Nat) (w : World)
    (h : env.createError attempt = EAGAIN) :
    Thread.createLoop env (n + 2) attempt w =
      Thread.createLoop env (n + 1) (attempt + 1) (emit (Event.pthreadCreate EAGAIN) w) := by
  rw [Thread.createLoop]
  simp [h, EAGAIN]

/-- After `k` attempts that fail with `EAGAIN`, with tries left, the loop
stands at attempt `k` with `k` recorded calls. -/
theorem createLoop_skip (env : Env) (n k attempt : Nat) (w : World)
    (h : ∀ j < k, env.createError (attempt + j) = EAGAIN) :
    Thread.createLoop env (n + 1 + k) attempt w =
      Thread.createLoop env (n + 1) (attempt + k)
        { w with trace := w.trace ++ List.replicate k (Event.pthreadCreate EAGAIN) } := by
  induction k generalizing attempt w with
  | zero => simp
  | succ k ih =>
    have h0 : env.createError attempt = EAGAIN := by simpa using h 0 (by omega)
    have hstep : n + 1 + (k + 1) = (n + k) + 2 := by omega
    rw [hstep, createLoop_eagain env (n + k) attempt w h0]
    have hk : n + k + 1 = n + 1 + k := by omega
    rw [hk, ih (attempt + 1) _ (fun j hj => by
      have := h (j + 1) (by omega)
      rwa [show attempt + (j + 1) = attempt + 1 + j by omega] at this)]
    have ha : attempt + 1 + k = attempt + (k + 1) := by omega
    rw [ha]
    congr 1
    simp [emit, List.replicate_succ]

/-- With a try left, the loop is not left through its condition. -/
theorem createLoop_not_conditionFalse (env : Env) (n attempt : Nat) (w : World) :
    (Thread.createLoop env (n + 1) attempt w).1 ≠ Thread.LoopExit.conditionFalse := by
  induction n generalizing attempt w with
  | zero =>
    rw [Thread.createLoop]
    by_cases h0 : env.createError attempt = 0
    · simp [h0]
    · simp [h0]
  | succ n ih =>
    rw [Thread.createLoop]
    by_cases h0 : env.createError attempt = 0
    · simp [h0]
    · by_cases h1 : env.createError attempt ≠ EAGAIN
      · simp [h0, h1]
      · simp only [h0, h1, if_false, false_or, Nat.add_eq_zero, one_ne_zero, and_false]
        exact ih _ _

/-- The loop makes at most as many `pthread_create` calls as it has tries, and
adds nothing else to the trace. -/
theorem createLoop_calls (env : Env) (n attempt : Nat) (w : World) :
    ∃ rest, (Thread.createLoop env n attempt w).2.trace = w.trace ++ rest ∧
      createCalls rest ≤ n := by
  induction n generalizing attempt w with
  | zero => exact ⟨[], by simp [Thread.createLoop, createCalls]⟩
  | succ n ih =>
    rw [Thread.createLoop]
    by_cases h0 : env.createError attempt = 0
    · exact ⟨[Event.pthreadCreate (env.createError attempt)], by simp [h0, createCalls]⟩
    · by_cases h1 : env.createError attempt ≠ EAGAIN ∨ n = 0
      · exact ⟨[Event.pthreadCreate (env.createError attempt)], by simp [h0, h1, createCalls]⟩
      · obtain ⟨rest, hr, hc⟩ :=
          ih (attempt + 1) (emit (Event.pthreadCreate (env.createError attempt)) w)
        refine ⟨Event.pthreadCreate (env.createError attempt) :: rest, ?_⟩
        simp only [h0, h1, if_false]
        simp [hr, createCalls, hc]

/-- From Stopped, `start()` whose retry loop creates a thread: the child runs
the first half of its entry routine, the caller takes `_syncChild`, assigns
Running and returns true. -/
theorem start_of_created (env : Env) (user : UserCode) (w w2 : World)
    (h : w.thread._state = State.STATE_STOPPED)
    (hcl : Thread.createLoop env 10 0 (setState State.STATE_STARTING w) =
      (Thread.LoopExit.created, w2)) :
    Thread.start env user w =
      (Outcome.returned true,
        setState State.STATE_RUNNING (emit Event.syncChildSet
          { (Thread._runChildEntry user env.childTid w2).2 with
            thread := { (Thread._runChildEntry user env.childTid w2).2.thread with
              _syncChild := true } })) := by
  unfold Thread.start
  rw [if_neg (by simp [h])]
  simp only [hcl]
  have hs : Thread.syncChildSet (Thread._runChildEntry user env.childTid w2).2 =
      some (emit Event.syncChildSet
        { (Thread._runChildEntry user env.childTid w2).2 with
          thread := { (Thread._runChildEntry user env.childTid w2).2.thread with
            _syncChild := true } }) := by
    unfold Thread.syncChildSet
    rw [if_neg (by simp [runChildEntry_syncChild])]
  rw [hs]

/-- From Stopped, `start()` whose retry loop gives up returns false and
leaves the world as the loop left it. -/
theorem start_of_returnedFalse (env : Env) (user : UserCode) (w w2 : World)
    (h : w.thread._state = State.STATE_STOPPED)
    (hcl : Thread.createLoop env 10 0 (setState State.STATE_STARTING w) =
      (Thread.LoopExit.returnedFalse, w2)) :
    Thread.start env user w = (Outcome.returned false, w2) := by
  unfold Thread.start
  rw [if_neg (by simp [h])]
  simp only [hcl]

/-- The retry loop of `start()` after `k` attempts that failed with `EAGAIN`,
for `k` below 10. -/
theorem createLoop_ten (env : Env) (k : Nat) (w : World) (hk : k < 10)
    (h : ∀ j < k, env.createError j = EAGAIN) :
    Thread.createLoop env 10 0 w =
      Thread.createLoop env (9 - k + 1) k
        { w with trace := w.trace ++ List.replicate k (Event.pthreadCreate EAGAIN) } := by
  have h10 : 10 = (9 - k) + 1 + k := by omega
  have := createLoop_skip env (9 - k) k 0 w (fun j hj => by simpa using h j hj)
  rw [← h10] at this
  simpa using this

/-- `start()` is its first part, the first half of the child entry routine and
its last part, one after the other. -/
theorem start_eq_steps (env : Env) (user : UserCode) (w : World) :
    Thread.start env user w =
      if (Thread.startHead env w).1 = true then
        Thread.startTail (Thread._runChildEntry user env.childTid (Thread.startHead env w).2).2
      else (Outcome.returned false, (Thread.startHead env w).2) := by
  by_cases hs : w.thread._state = State.STATE_STOPPED
  · have hn := createLoop_not_conditionFalse env 9 0 (setState State.STATE_STARTING w)
    have h1 : Thread.startHead env w =
        match Thread.createLoop env 10 0 (setState State.STATE_STARTING w) with
        | (Thread.LoopExit.returnedFalse, w2) => (false, w2)
        | (Thread.LoopExit.created, w2) => (true, w2)
        | (Thread.LoopExit.conditionFalse, w2) => (true, w2) := by
      unfold Thread.startHead
      rw [if_neg (by simp [hs])]
    rw [h1]
    unfold Thread.start
    rw [if_neg (by simp [hs])]
    rcases hcl : Thread.createLoop env 10 0 (setState State.STATE_STARTING w) with ⟨ex, w2⟩
    rw [hcl] at hn
    cases ex with
    | returnedFalse => simp [hcl]
    | created => simp [hcl, Thread.startTail]
    | conditionFalse => exact absurd rfl hn
  · simp [Thread.start, Thread.startHead, hs]

/-- An attempt that succeeds leaves the loop with the new thread's id stored. -/
theorem createLoop_created (env : Env) (n attempt : Nat) (w : World)
    (h0 : env.createError attempt = 0) :
    Thread.createLoop env (n + 1) attempt w =
      (Thread.LoopExit.created,
        { emit (Event.pthreadCreate 0) w with
          thread := { w.thread with dataThreadID := env.childTid } }) := by
  rw [Thread.createLoop]
  simp [h0]

/-- An attempt that fails with another error than `EAGAIN`, or fails as the
last try, makes `start()` return false. -/
theorem createLoop_failed (env : Env) (n attempt : Nat) (w : World)
    (h0 : env.createError attempt ≠ 0) (h1 : env.createError attempt ≠ EAGAIN ∨ n = 0) :
    Thread.createLoop env (n + 1) attempt w =
      (Thread.LoopExit.returnedFalse, emit (Event.pthreadCreate (env.createError attempt)) w) := by
  rw [Thread.createLoop]
  simp only [h0, if_false, h1, if_true]

/-- The first half of the child entry routine makes no `pthread_create`
call. -/
theorem runChildEntry_createCalls (user : UserCode) (self : PthreadT) (w : World) :
    ∃ rest, (Thread._runChildEntry user self w).2.trace = w.trace ++ rest ∧
      createCalls rest = 0 := by
  refine ⟨_, runChildEntry_trace user self w, ?_⟩
  cases user.init <;> simp [createCalls, createCalls_append]

/-- From Stopped, when the attempts before attempt `k` fail with `EAGAIN` and
attempt `k` succeeds, `start()` returns true in state Running after `k + 1`
calls of `pthread_create`. -/
theorem start_success_at (env : Env) (user : UserCode) (w : World) (k : Nat)
    (h : w.thread._state = State.STATE_STOPPED) (hk : k < 10)
    (he : ∀ j < k, env.createError j = EAGAIN) (h0 : env.createError k = 0) :
    (Thread.start env user w).1 = Outcome.returned true ∧
    (Thread.start env user w).2.thread._state = State.STATE_RUNNING ∧
    createCalls (newEvents w (Thread.start env user w).2) = k + 1 := by
  obtain ⟨w2, hcl, hw2⟩ : ∃ w2,
      Thread.createLoop env 10 0 (setState State.STATE_STARTING w) =
        (Thread.LoopExit.created, w2) ∧
      w2.trace = w.trace ++ ([Event.stateWrite w.thread._state State.STATE_STARTING] ++
        List.replicate k (Event.pthreadCreate EAGAIN) ++ [Event.pthreadCreate 0]) :=
    ⟨_, (createLoop_ten env k (setState State.STATE_STARTING w) hk he).trans
      (createLoop_created env (9 - k) k _ h0), by simp⟩
  rw [start_of_created env user w w2 h hcl]
  refine ⟨rfl, rfl, ?_⟩
  obtain ⟨rest, hr, hc⟩ := runChildEntry_createCalls user env.childTid w2
  rw [newEvents_append w _
    ([Event.stateWrite w.thread._state State.STATE_STARTING] ++
      List.replicate k (Event.pthreadCreate EAGAIN) ++ [Event.pthreadCreate 0] ++ rest ++
      [Event.syncChildSet, Event.stateWrite
        (Thread._runChildEntry user env.childTid w2).2.thread._state State.STATE_RUNNING])
    (by simp only [setState_trace, emit_trace, emit_thread, hr, hw2]; simp)]
  simp [createCalls_append, createCalls, hc]

/-- From Stopped, when the attempts before attempt `k` fail with `EAGAIN` and
attempt `k` fails with another error, or is the tenth attempt and fails,
`start()` returns false after `k + 1` calls of `pthread_create`; the state is
left at Starting and the only state change is the one from Stopped to
Starting. -/
theorem start_failure_at (env : Env) (user : UserCode) (w : World) (k : Nat)
    (h : w.thread._state = State.STATE_STOPPED) (hk : k < 10)
    (he : ∀ j < k, env.createError j = EAGAIN) (h0 : env.createError k ≠ 0)
    (h1 : env.createError k ≠ EAGAIN ∨ k = 9) :
    (Thread.start env user w).1 = Outcome.returned false ∧
    (Thread.start env user w).2.thread._state = State.STATE_STARTING ∧
    createCalls (newEvents w (Thread.start env user w).2) = k + 1 ∧
    stateChanges (newEvents w (Thread.start env user w).2) =
      [(State.STATE_STOPPED, State.STATE_STARTING)] := by
  have h2 : env.createError k ≠ EAGAIN ∨ 9 - k = 0 := by
    rcases h1 with h1 | h1
    · exact Or.inl h1
    · exact Or.inr (by omega)
  have hcl := (createLoop_ten env k (setState State.STATE_STARTING w) hk he).trans
    (createLoop_failed env (9 - k) k _ h0 h2)
  rw [start_of_returnedFalse env user w _ h hcl]
  refine ⟨rfl, rfl, ?_, ?_⟩
  · rw [newEvents_append w _
      ([Event.stateWrite w.thread._state State.STATE_STARTING] ++
        List.replicate k (Event.pthreadCreate EAGAIN) ++
        [Event.pthreadCreate (env.createError k)]) (by simp)]
    simp [createCalls_append, createCalls]
  · rw [newEvents_append w _
      ([Event.stateWrite w.thread._state State.STATE_STARTING] ++
        List.replicate k (Event.pthreadCreate EAGAIN) ++
        [Event.pthreadCreate (env.createError k)]) (by simp)]
    simp [stateChanges_append, stateChanges, h]

/-! ## C14: `start()` of a unit whose `init()` fails -/

/-- C14. The code at the failing input: `start()` on a Stopped unit (listeners
1 and 2 registered) whose thread 7 is created at the first attempt and whose
`init()` fails.  The child assigns Stopped, calls neither `run()` nor a
listener and ends through `pthread_exit( NULL )`; but the caller, once it holds
`_syncChild`, assigns Running and returns true, so that after `start()` has
returned the state is Running, not Stopped, and a second `start()` is refused. -/
theorem C14_start_after_failed_init :
    (Thread.start envOk userFail (worldIn State.STATE_STOPPED)).1 = Outcome.returned true ∧
    (Thread.start envOk userFail (worldIn State.STATE_STOPPED)).2.thread._state =
      State.STATE_RUNNING ∧
    (Thread.start envOk userFail (worldIn State.STATE_STOPPED)).2.trace =
      [Event.stateWrite State.STATE_STOPPED State.STATE_STARTING, Event.pthreadCreate 0,
        Event.callInit, Event.stateWrite State.STATE_STARTING State.STATE_STOPPED,
        Event.syncChildUnset, Event.syncChildSet,
        Event.stateWrite State.STATE_STOPPED State.STATE_RUNNING] ∧
    (Thread._runChildBody false libPosix userFail 7 false
        (Thread.start envOk userFail (worldIn State.STATE_STOPPED)).2).1 =
      Outcome.threadExited 0 ∧
    newEvents (Thread.start envOk userFail (worldIn State.STATE_STOPPED)).2
        (Thread._runChildBody false libPosix userFail 7 false
          (Thread.start envOk userFail (worldIn State.STATE_STOPPED)).2).2 =
      [Event.pthreadExit 7 0] ∧
    (Thread.start envOk userFail
        (Thread.start envOk userFail (worldIn State.STATE_STOPPED)).2).1 =
      Outcome.returned false := by
  decide

/-! ## C15: the retry loop of `start()` -/

/-- C15. From Stopped, `start()` returns after at most 10 calls of
`pthread_create`, whatever the creation results are.  When the attempts before
attempt `k` (counted from 0, `k` below 10) fail with `EAGAIN` and attempt `k`
succeeds, it returns true in state Running after `k + 1` calls.  When attempt
`k` instead fails with another error than `EAGAIN`, or fails as the tenth
attempt, it returns false after `k + 1` calls, and the state is left at
Starting, the change from Stopped to Starting being the only one. -/
theorem C15_start_retry_loop (env : Env) (user : UserCode) (w : World)
    (h : w.thread._state = State.STATE_STOPPED) :
    createCalls (newEvents w (Thread.start env user w).2) ≤ 10 ∧
    (∃ b, (Thread.start env user w).1 = Outcome.returned b) ∧
    (∀ k, k < 10 → (∀ j < k, env.createError j = EAGAIN) → env.createError k = 0 →
      (Thread.start env user w).1 = Outcome.returned true ∧
      (Thread.start env user w).2.thread._state = State.STATE_RUNNING ∧
      createCalls (newEvents w (Thread.start env user w).2) = k + 1) ∧
    (∀ k, k < 10 → (∀ j < k, env.createError j = EAGAIN) → env.createError k ≠ 0 →
      (env.createError k ≠ EAGAIN ∨ k = 9) →
      (Thread.start env user w).1 = Outcome.returned false ∧
      (Thread.start env user w).2.thread._state = State.STATE_STARTING ∧
      createCalls (newEvents w (Thread.start env user w).2) = k + 1 ∧
      stateChanges (newEvents w (Thread.start env user w).2) =
        [(State.STATE_STOPPED, State.STATE_STARTING)]) := by
  have hs := fun k hk he h0 => start_success_at env user w k h hk he h0
  have hf := fun k hk he h0 h1 => start_failure_at env user w k h hk he h0 h1
  have hE : EAGAIN ≠ 0 := by decide
  have key : ∃ k, k < 10 ∧ (∀ j < k, env.createError j = EAGAIN) ∧
      (env.createError k ≠ EAGAIN ∨ k = 9) := by
    by_cases hall : ∀ j < 9, env.createError j = EAGAIN
    · exact ⟨9, by omega, hall, Or.inr rfl⟩
    · have hex : ∃ j, j < 9 ∧ env.createError j ≠ EAGAIN := by
        by_contra hne
        exact hall (fun j hj => by
          by_contra hc
          exact hne ⟨j, hj, hc⟩)
      classical
      refine ⟨Nat.find hex, by have := (Nat.find_spec hex).1; omega, ?_,
        Or.inl (Nat.find_spec hex).2⟩
      intro j hj
      by_contra hc
      exact Nat.find_min hex hj ⟨by have := (Nat.find_spec hex).1; omega, hc⟩
  obtain ⟨k, hk, he, h1⟩ := key
  refine ⟨?_, ?_, hs, hf⟩
  · by_cases h0 : env.createError k = 0
    · rw [(hs k hk he h0).2.2]; omega
    · rw [(hf k hk he h0 h1).2.2.1]; omega
  · by_cases h0 : env.createError k = 0
    · exact ⟨true, (hs k hk he h0).1⟩
    · exact ⟨false, (hf k hk he h0 h1).1⟩

/-- C15 at a Stopped unit: two `EAGAIN` failures and a success give true after
3 calls; ten `EAGAIN` failures give false after 10 calls; an `EAGAIN` failure
followed by the error 22 gives false after 2 calls. -/
theorem C15_start_retry_loop_witness :
    ((Thread.start envEagainTwice userOk (worldIn State.STATE_STOPPED)).1 =
        Outcome.returned true ∧
      (Thread.start envEagainTwice userOk (worldIn State.STATE_STOPPED)).2.thread._state =
        State.STATE_RUNNING ∧
      createCalls (newEvents (worldIn State.STATE_STOPPED)
        (Thread.start envEagainTwice userOk (worldIn State.STATE_STOPPED)).2) = 2 + 1) ∧
    ((Thread.start envEagainAlways userOk (worldIn State.STATE_STOPPED)).1 =
        Outcome.returned false ∧
      (Thread.start envEagainAlways userOk (worldIn State.STATE_STOPPED)).2.thread._state =
        State.STATE_STARTING ∧
      createCalls (newEvents (worldIn State.STATE_STOPPED)
        (Thread.start envEagainAlways userOk (worldIn State.STATE_STOPPED)).2) = 9 + 1 ∧
      stateChanges (newEvents (worldIn State.STATE_STOPPED)
        (Thread.start envEagainAlways userOk (worldIn State.STATE_STOPPED)).2) =
        [(State.STATE_STOPPED, State.STATE_STARTING)]) ∧
    ((Thread.start envEagainThenError userOk (worldIn State.STATE_STOPPED)).1 =
        Outcome.returned false ∧
      (Thread.start envEagainThenError userOk (worldIn State.STATE_STOPPED)).2.thread._state =
        State.STATE_STARTING ∧
      createCalls (newEvents (worldIn State.STATE_STOPPED)
        (Thread.start envEagainThenError userOk (worldIn State.STATE_STOPPED)).2) = 1 + 1 ∧
      stateChanges (newEvents (worldIn State.STATE_STOPPED)
        (Thread.start envEagainThenError userOk (worldIn State.STATE_STOPPED)).2) =
        [(State.STATE_STOPPED, State.STATE_STARTING)]) :=
  ⟨(C15_start_retry_loop envEagainTwice userOk (worldIn State.STATE_STOPPED) rfl).2.2.1 2
      (by decide) (by decide) (by decide),
   (C15_start_retry_loop envEagainAlways userOk (worldIn State.STATE_STOPPED) rfl).2.2.2 9
      (by decide) (by decide) (by decide) (Or.inr rfl),
   (C15_start_retry_loop envEagainThenError userOk (worldIn State.STATE_STOPPED) rfl).2.2.2 1
      (by decide) (by decide) (by decide) (Or.inl (by decide))⟩

end eqBase

namespace eq.server

/-! ## C11: the finished frame -/

/-- No call of the frame interface lowers the finished frame. -/
theorem frameCall_finished_le (n : Node) (c : FrameCall) :
    n.getFinishedFrame ≤ (n.frameCall c).getFinishedFrame := by
  cases c with
  | update frameID frameNumber => exact Nat.le_refl _
  | flushFrames frameNumber => exact Nat.le_refl _
  | finishFrame frame =>
    simp only [Node.frameCall, Node.finishFrame, Node.getFinishedFrame]
    split <;> omega

/-- No sequence of calls of the frame interface lowers the finished frame. -/
theorem frameCalls_finished_le (cs : List FrameCall) (n : Node) :
    n.getFinishedFrame ≤ (Node.frameCalls cs n).getFinishedFrame := by
  induction cs generalizing n with
  | nil => exact Nat.le_refl _
  | cons c cs ih => exact Nat.le_trans (frameCall_finished_le n c) (ih (n.frameCall c))

/-- When no acknowledged frame number is above the highest frame number passed
to `update` before it, the finished frame stays below the highest frame
number passed to `update`. -/
theorem frameCalls_finished_bound (cs : List FrameCall) (hi : Nat) (n : Node)
    (hn : n.getFinishedFrame ≤ hi) (h : acksWithinUpdates hi cs = true) :
    (Node.frameCalls cs n).getFinishedFrame ≤ max hi (highestUpdate cs) := by
  induction cs generalizing hi n with
  | nil => simpa [Node.frameCalls, highestUpdate] using hn
  | cons c cs ih =>
    have hstep : Node.frameCalls (c :: cs) n = Node.frameCalls cs (n.frameCall c) := rfl
    rw [hstep]
    cases c with
    | update frameID frameNumber =>
      simp only [acksWithinUpdates] at h
      have := ih (max hi frameNumber) (n.frameCall (FrameCall.update frameID frameNumber))
        (Nat.le_trans hn (Nat.le_max_left _ _)) h
      simp only [highestUpdate]
      omega
    | flushFrames frameNumber =>
      simp only [acksWithinUpdates] at h
      exact ih hi (n.frameCall (FrameCall.flushFrames frameNumber)) hn h
    | finishFrame frame =>
      simp only [acksWithinUpdates, Bool.and_eq_true, decide_eq_true_eq] at h
      refine ih hi (n.frameCall (FrameCall.finishFrame frame)) ?_ h.2
      simp only [Node.frameCall, Node.finishFrame, Node.getFinishedFrame] at hn ⊢
      split <;> omega

/-- C11, as stated, fails on the operations as the spec describes them: an
acknowledgement is applied whatever its frame number is, so `finishFrame( 9 )`
on a new node, to whose `update` no frame number was ever passed, makes
`getFinishedFrame()` return 9. -/
theorem C11_finished_frame_counterexample :
    (Node.frameCalls [FrameCall.finishFrame 9] Node.new).getFinishedFrame = 9 ∧
    highestUpdate [FrameCall.finishFrame 9] = 0 ∧
    ¬ ∀ cs : List FrameCall,
      (Node.frameCalls cs Node.new).getFinishedFrame ≤ highestUpdate cs := by
  refine ⟨by decide, by decide, ?_⟩
  intro h
  exact absurd (h [FrameCall.finishFrame 9]) (by decide)

/-- C11, amended. For every node and every sequence of `update`,
`flushFrames` and `finishFrame` calls (each `finishFrame` standing for the call
and its acknowledgement), `getFinishedFrame()` never decreases, neither over one
call nor over the sequence; an acknowledgement for a frame that is not newer
than the finished frame leaves it unchanged; on a new node, when no
acknowledged frame number is above the highest frame number passed to `update`
before it, `getFinishedFrame()` does not exceed the highest frame number passed
to `update`; and `update( 7, 5 )`, `finishFrame( 5 )` gives 5, after which
`finishFrame( 4 )` leaves 5. -/
theorem C11_finished_frame (cs : List FrameCall) (n : Node) (c : FrameCall) (frame : Nat) :
    n.getFinishedFrame ≤ (n.frameCall c).getFinishedFrame ∧
    n.getFinishedFrame ≤ (Node.frameCalls cs n).getFinishedFrame ∧
    (frame ≤ n.getFinishedFrame →
      (n.finishFrame frame).getFinishedFrame = n.getFinishedFrame) ∧
    (acksWithinUpdates 0 cs = true →
      (Node.frameCalls cs Node.new).getFinishedFrame ≤ highestUpdate cs) ∧
    (Node.frameCalls [FrameCall.update 7 5, FrameCall.finishFrame 5]
      Node.new).getFinishedFrame = 5 ∧
    (Node.frameCalls [FrameCall.update 7 5, FrameCall.finishFrame 5, FrameCall.finishFrame 4]
      Node.new).getFinishedFrame = 5 := by
  refine ⟨frameCall_finished_le n c, frameCalls_finished_le cs n, ?_, ?_, by decide, by decide⟩
  · intro h
    simp only [Node.finishFrame, Node.getFinishedFrame] at h ⊢
    rw [if_neg (by omega)]
  · intro h
    have := frameCalls_finished_bound cs 0 Node.new (Nat.le_refl _) h
    simpa using this

/-- C11, amended, at the scenario of the spec. -/
theorem C11_finished_frame_witness :
    (Node.frameCalls [FrameCall.update 7 5, FrameCall.finishFrame 5, FrameCall.finishFrame 4]
        Node.new).getFinishedFrame ≤
      highestUpdate [FrameCall.update 7 5, FrameCall.finishFrame 5, FrameCall.finishFrame 4] ∧
    ((Node.frameCalls [FrameCall.update 7 5, FrameCall.finishFrame 5] Node.new).finishFrame
        4).getFinishedFrame =
      (Node.frameCalls [FrameCall.update 7 5, FrameCall.finishFrame 5]
        Node.new).getFinishedFrame :=
  ⟨(C11_finished_frame
      [FrameCall.update 7 5, FrameCall.finishFrame 5, FrameCall.finishFrame 4] Node.new
      (FrameCall.finishFrame 4) 4).2.2.2.1 (by decide),
   (C11_finished_frame [] (Node.frameCalls [FrameCall.update 7 5, FrameCall.finishFrame 5]
      Node.new) (FrameCall.finishFrame 4) 4).2.2.1 (by decide)⟩

/-! ## C12: the send buffer -/

/-- C12. Each of the three overloads of `Node::send` stamps the packet with
the id of the owning config, for the caller and in the buffer, and transmits
nothing.  After `send( p1 )`, `send( p2 )` nothing has been written on the
connection, and one `flushSendBuffer()` then adds exactly one write, which
holds what was buffered before followed by the stamped `p1` and the stamped
`p2`, in this order, and leaves the buffer empty. -/
theorem C12_send_send_flush (n : Node) (c1 c2 : SendCall) :
    (n.sendCall c1).1.sessionID = n.configID ∧
    (n.sendCall c1).2._bufferedTasks =
      n._bufferedTasks ++ [({ c1.packet with sessionID := n.configID }, c1.attached)] ∧
    (n.sendCall c1).2.connection = n.connection ∧
    ((n.sendCall c1).2.sendCall c2).2.connection = n.connection ∧
    (((n.sendCall c1).2.sendCall c2).2.flushSendBuffer).connection =
      n.connection ++ [n._bufferedTasks ++
        [({ c1.packet with sessionID := n.configID }, c1.attached),
          ({ c2.packet with sessionID := n.configID }, c2.attached)]] ∧
    (((n.sendCall c1).2.sendCall c2).2.flushSendBuffer)._bufferedTasks = [] := by
  cases c1 <;> cases c2 <;>
    simp [Node.sendCall, Node.send, Node.sendString, Node.sendVector, Node.bufferedSend,
      Node.flushSendBuffer, SendCall.packet, SendCall.attached]

/-! ## C13: the barrier cache -/

/-- C13. `getBarrier()` returns a barrier of height 0.  After `getBarrier()`
and `releaseBarrier( b )`, with whatever height `b` was given in between, the
next `getBarrier()` constructs no barrier: it returns a barrier of the cache
with its height reset to 0, and this is `b` itself when the cache is used last
in, first out or held nothing else. -/
theorem C13_barrier_reuse (lifo : Bool) (n : Node) (height : Nat) :
    (n.getBarrier lifo).1.height = 0 ∧
    (((n.getBarrier lifo).2.releaseBarrier
        { (n.getBarrier lifo).1 with height := height }).getBarrier lifo).1.height = 0 ∧
    (((n.getBarrier lifo).2.releaseBarrier
        { (n.getBarrier lifo).1 with height := height }).getBarrier lifo).2.barriersCreated =
      (n.getBarrier lifo).2.barriersCreated ∧
    (∃ cached ∈ ((n.getBarrier lifo).2.releaseBarrier
        { (n.getBarrier lifo).1 with height := height })._barriers,
      (((n.getBarrier lifo).2.releaseBarrier
        { (n.getBarrier lifo).1 with height := height }).getBarrier lifo).1 =
        { cached with height := 0 }) ∧
    ((lifo = true ∨ (n.getBarrier lifo).2._barriers = []) →
      (((n.getBarrier lifo).2.releaseBarrier
        { (n.getBarrier lifo).1 with height := height }).getBarrier lifo).1 =
        (n.getBarrier lifo).1) := by
  have h0 : ∀ m : Node, (m.getBarrier lifo).1.height = 0 := by
    intro m
    unfold Node.getBarrier
    cases lifo
    · cases m._barriers <;> simp
    · cases m._barriers.getLast? <;> simp
  generalize hb : (n.getBarrier lifo).1 = b
  generalize hn1 : (n.getBarrier lifo).2 = n1
  have hb0 : b.height = 0 := by rw [← hb]; exact h0 n
  refine ⟨hb0, h0 _, ?_, ?_, ?_⟩
  · cases lifo
    · cases hc : n1._barriers <;> simp [Node.getBarrier, Node.releaseBarrier, hc]
    · simp [Node.getBarrier, Node.releaseBarrier]
  · cases lifo
    · cases hc : n1._barriers with
      | nil =>
        exact ⟨{ b with height := height }, by simp [Node.releaseBarrier, hc],
          by simp [Node.getBarrier, Node.releaseBarrier, hc]⟩
      | cons c rest =>
        exact ⟨c, by simp [Node.releaseBarrier, hc],
          by simp [Node.getBarrier, Node.releaseBarrier, hc]⟩
    · exact ⟨{ b with height := height }, by simp [Node.releaseBarrier],
        by simp [Node.getBarrier, Node.releaseBarrier]⟩
  · intro h
    cases lifo
    · rcases h with h | h
      · exact absurd h (by simp)
      · simp [Node.getBarrier, Node.releaseBarrier, h, ← hb0]
    · simp [Node.getBarrier, Node.releaseBarrier, ← hb0]

/-- C13 on a new node, whose cache is empty: the barrier handed out first,
released with height 3, is handed out again with height 0 and no second
barrier is constructed. -/
theorem C13_barrier_reuse_witness :
    (((Node.new.getBarrier true).2.releaseBarrier
        { (Node.new.getBarrier true).1 with height := 3 }).getBarrier true).1 =
      (Node.new.getBarrier true).1 ∧
    (((Node.new.getBarrier false).2.releaseBarrier
        { (Node.new.getBarrier false).1 with height := 3 }).getBarrier false).1 =
      (Node.new.getBarrier false).1 :=
  ⟨(C13_barrier_reuse true Node.new 3).2.2.2.2 (Or.inl rfl),
   (C13_barrier_reuse false Node.new 3).2.2.2.2 (Or.inr rfl)⟩

end eq.server

namespace eq

/-! ## C16: the button state -/

theorem and_two_eq (x : Nat) : x &&& 2 = 2 * (x / 2 % 2) := by
  have h := Nat.and_two_pow x 1
  rw [Nat.toNat_testBit] at h
  norm_num at h
  omega

theorem and_four_eq (x : Nat) : x &&& 4 = 4 * (x / 4 % 2) := by
  have h := Nat.and_two_pow x 2
  rw [Nat.toNat_testBit] at h
  norm_num at h
  omega

theorem and_even_mod_two (x m : Nat) (hm : m % 2 = 0) : (x &&& m) % 2 = 0 := by
  rcases Nat.mod_two_eq_zero_or_one (x &&& m) with h | h
  · exact h
  · have := (Nat.and_mod_two_eq_one.mp h).2
    omega

theorem and_odd_mod_two (x m : Nat) (hm : m % 2 = 1) : (x &&& m) % 2 = x % 2 := by
  rcases Nat.mod_two_eq_zero_or_one (x &&& m) with h | h
  · rcases Nat.mod_two_eq_zero_or_one x with hx | hx
    · omega
    · have := Nat.and_mod_two_eq_one.mpr ⟨hx, hm⟩
      omega
  · have := (Nat.and_mod_two_eq_one.mp h).1
    omega

/-- The mask `0xfffffff9` keeps every bit of a 32-bit value but the bits of
value 2 and 4. -/
theorem and_mask_eq (b : Nat) (hb : b < 2 ^ 32) : b &&& 0xfffffff9 = 8 * (b / 8) + b % 2 := by
  have h1 : (b &&& 0xfffffff9) / 2 = b / 2 &&& 0x7ffffffc := by
    rw [Nat.and_div_two]
  have h2 : (b / 2 &&& 0x7ffffffc) / 2 = b / 2 / 2 &&& 0x3ffffffe := by
    rw [Nat.and_div_two]
  have h3 : (b / 2 / 2 &&& 0x3ffffffe) / 2 = b / 2 / 2 / 2 % 2 ^ 29 := by
    rw [Nat.and_div_two, ← Nat.and_pow_two_sub_one_eq_mod]
  have m1 := and_odd_mod_two b 0xfffffff9 (by norm_num)
  have m2 := and_even_mod_two (b / 2) 0x7ffffffc (by norm_num)
  have m3 := and_even_mod_two (b / 2 / 2) 0x3ffffffe (by norm_num)
  omega

/-- The three summands of `_getButtonState` for a 32-bit value, in
arithmetic. -/
theorem buttonStateParts_eq (k : Constants) (h2 : k.EQ_BIT2 = 2) (h3 : k.EQ_BIT3 = 4)
    (b : Nat) (hb : b < 2 ^ 32) :
    (AGLEventHandler.buttonStateParts k b).1 = 8 * (b / 8) + b % 2 ∧
    (AGLEventHandler.buttonStateParts k b).2.1 = 2 * (b / 4 % 2) ∧
    (AGLEventHandler.buttonStateParts k b).2.2 = 4 * (b / 2 % 2) := by
  simp only [AGLEventHandler.buttonStateParts, h2, h3]
  refine ⟨and_mask_eq b hb, ?_, ?_⟩
  · have h := and_four_eq b
    have hs : (b &&& 4) >>> 1 = (b &&& 4) / 2 := by
      rw [Nat.shiftRight_eq_div_pow, Nat.pow_one]
    omega
  · have h := and_two_eq b
    have hs : (b &&& 2) <<< 1 = (b &&& 2) * 2 := by
      rw [Nat.shiftLeft_eq, Nat.pow_one]
    omega

/-- The value of `_getButtonState` for a 32-bit value, in arithmetic. -/
theorem getButtonState_eq (k : Constants) (h2 : k.EQ_BIT2 = 2) (h3 : k.EQ_BIT3 = 4)
    (b : Nat) (hb : b < 2 ^ 32) :
    AGLEventHandler._getButtonState k b =
      8 * (b / 8) + b % 2 + 2 * (b / 4 % 2) + 4 * (b / 2 % 2) := by
  obtain ⟨e1, e2, e3⟩ := buttonStateParts_eq k h2 h3 b hb
  unfold AGLEventHandler._getButtonState
  rw [e1, e2, e3]
  omega

/-- A bit at position 3 or above is a bit of the value divided by 8. -/
theorem testBit_three_add (x j : Nat) : x.testBit (3 + j) = (x / 8).testBit j := by
  rw [← Nat.testBit_shiftRight, Nat.shiftRight_eq_div_pow]

/-- C16. For the masks `EQ_BIT2 = 2` and `EQ_BIT3 = 4` and every 32-bit
button mask `b`, `_getButtonState` returns `b` with the bits at positions 1
and 2 (the values 2 and 4) exchanged and every other bit unchanged; applying
it twice gives `b`; the sum of the three summands stays below 2^32, and
neither of the two additions carries: what is added shares no bit with what
it is added to. -/
theorem C16_button_state_swap (k : Constants) (h2 : k.EQ_BIT2 = 2) (h3 : k.EQ_BIT3 = 4)
    (b : Nat) (hb : b < 2 ^ 32) :
    (∀ i, (AGLEventHandler._getButtonState k b).testBit i =
      b.testBit (if i = 1 then 2 else if i = 2 then 1 else i)) ∧
    AGLEventHandler._getButtonState k (AGLEventHandler._getButtonState k b) = b ∧
    (AGLEventHandler.buttonStateParts k b).1 + (AGLEventHandler.buttonStateParts k b).2.1 +
      (AGLEventHandler.buttonStateParts k b).2.2 < 2 ^ 32 ∧
    (AGLEventHandler.buttonStateParts k b).1 &&& (AGLEventHandler.buttonStateParts k b).2.1 = 0 ∧
    ((AGLEventHandler.buttonStateParts k b).1 + (AGLEventHandler.buttonStateParts k b).2.1) &&&
      (AGLEventHandler.buttonStateParts k b).2.2 = 0 := by
  obtain ⟨e1, e2, e3⟩ := buttonStateParts_eq k h2 h3 b hb
  have hf := getButtonState_eq k h2 h3 b hb
  have hlt : AGLEventHandler._getButtonState k b < 2 ^ 32 := by rw [hf]; omega
  have hff := getButtonState_eq k h2 h3 _ hlt
  refine ⟨?_, ?_, ?_, ?_, ?_⟩
  · intro i
    match i with
    | 0 =>
      show (AGLEventHandler._getButtonState k b).testBit 0 = b.testBit 0
      rw [Nat.testBit_zero, Nat.testBit_zero, hf]
      congr 1
      apply propext
      constructor <;> intro h <;> omega
    | 1 =>
      show (AGLEventHandler._getButtonState k b).testBit 1 = b.testBit 2
      rw [Nat.testBit_to_div_mod, Nat.testBit_to_div_mod, hf]
      have p1 : (2 : Nat) ^ 1 = 2 := by norm_num
      have p2 : (2 : Nat) ^ 2 = 4 := by norm_num
      rw [p1, p2]
      congr 1
      apply propext
      constructor <;> intro h <;> omega
    | 2 =>
      show (AGLEventHandler._getButtonState k b).testBit 2 = b.testBit 1
      rw [Nat.testBit_to_div_mod, Nat.testBit_to_div_mod, hf]
      have p1 : (2 : Nat) ^ 1 = 2 := by norm_num
      have p2 : (2 : Nat) ^ 2 = 4 := by norm_num
      rw [p1, p2]
      congr 1
      apply propext
      constructor <;> intro h <;> omega
    | j + 3 =>
      have hj : (if j + 3 = 1 then 2 else if j + 3 = 2 then 1 else j + 3) = 3 + j := by
        rw [if_neg (by omega), if_neg (by omega)]
        omega
      rw [hj, show j + 3 = 3 + j by omega, testBit_three_add, testBit_three_add]
      congr 1
      rw [hf]
      omega
  · rw [hff, hf]
    have h42 : b / 4 / 2 = b / 8 := by rw [Nat.div_div_eq_div_mul]
    have h22 : b / 2 / 2 = b / 4 := by rw [Nat.div_div_eq_div_mul]
    have hd : b = 8 * (b / 8) + 4 * (b / 4 % 2) + 2 * (b / 2 % 2) + b % 2 := by
      clear hff hf hlt e1 e2 e3
      omega
    clear h42 h22
    have ht0 : b % 2 < 2 := Nat.mod_lt _ (by norm_num)
    have ht1 : b / 2 % 2 < 2 := Nat.mod_lt _ (by norm_num)
    have ht2 : b / 4 % 2 < 2 := Nat.mod_lt _ (by norm_num)
    generalize b / 8 = q at hd ⊢
    generalize b / 4 % 2 = t2 at hd ht2 ⊢
    generalize b / 2 % 2 = t1 at hd ht1 ⊢
    generalize b % 2 = t0 at hd ht0 ⊢
    clear hff hf hlt e1 e2 e3
    have x8 : (8 * q + t0 + 2 * t2 + 4 * t1) / 8 = q := by omega
    have x4 : (8 * q + t0 + 2 * t2 + 4 * t1) / 4 = 2 * q + t1 := by omega
    have x2 : (8 * q + t0 + 2 * t2 + 4 * t1) / 2 = 4 * q + 2 * t1 + t2 := by omega
    have x0 : (8 * q + t0 + 2 * t2 + 4 * t1) % 2 = t0 := by omega
    have y4 : (2 * q + t1) % 2 = t1 := by omega
    have y2 : (4 * q + 2 * t1 + t2) % 2 = t2 := by omega
    rw [x8, x4, x2, x0, y4, y2]
    omega
  · rw [e1, e2, e3]
    omega
  · rw [e1, e2]
    rcases Nat.mod_two_eq_zero_or_one (b / 4) with h | h
    · rw [h]; simp
    · rw [h, and_two_eq]
      omega
  · rw [e1, e2, e3]
    rcases Nat.mod_two_eq_zero_or_one (b / 2) with h | h
    · rw [h]; simp
    · rw [h, and_four_eq]
      omega

/-- C16 at the mask 3 (buttons 1 and 2), which becomes 5 (buttons 1 and 3). -/
theorem C16_button_state_swap_witness :
    AGLEventHandler._getButtonState constants 3 = 5 ∧
    AGLEventHandler._getButtonState constants (AGLEventHandler._getButtonState constants 3) =
      3 :=
  ⟨by decide, (C16_button_state_swap constants rfl rfl 3 (by decide)).2.1⟩

end eq

namespace eq

/-! ## The conversions of `_handleMouseEvent` -/

/-- A pointer event that is not rejected and has an answer was handed to
`processEvent` with the converted position, the menu bar height taken off its
`y`, and the buttons of the modifier block. -/
theorem handleMouseEvent_forwarded (k : Constants) (sys : WindowSystem) (event : MouseEvent)
    (handler : AGLEventHandler) (hkind : event.kind ≠ MouseEventKind.other)
    (hpos : ¬ event.windowMouseLocation.y < (AGLEventHandler.menuHeight k sys : ℚ))
    (r : Bool) (fwd : Option AGLWindowEvent) (after : AGLEventHandler)
    (hres : AGLEventHandler._handleMouseEvent k sys event handler = some (r, fwd, after)) :
    ∃ ev y, fwd = some ev ∧ r = sys.processEvent ev ∧
      toInt32 event.windowMouseLocation.y = some y ∧
      ev.pointer.y = wrapInt32 (y - AGLEventHandler.menuHeight k sys) ∧
      ev.pointer.buttons = AGLEventHandler.modifierButtons k
        (AGLEventHandler._getButtonState k sys.currentEventButtonState) event.keyModifiers := by
  unfold AGLEventHandler._handleMouseEvent at hres
  cases hk : event.kind with
  | other => exact absurd hk hkind
  | kEventMouseMoved =>
    simp only [hk, hpos, if_false, Option.bind_eq_some] at hres
    obtain ⟨x, -, y, hy, dx, -, dy, -, h⟩ := hres
    simp only [Option.some.injEq, Prod.mk.injEq] at h
    obtain ⟨rfl, rfl, -⟩ := h
    exact ⟨_, y, rfl, rfl, hy, rfl, rfl⟩
  | kEventMouseDragged =>
    simp only [hk, hpos, if_false, Option.bind_eq_some] at hres
    obtain ⟨x, -, y, hy, dx, -, dy, -, h⟩ := hres
    simp only [Option.some.injEq, Prod.mk.injEq] at h
    obtain ⟨rfl, rfl, -⟩ := h
    exact ⟨_, y, rfl, rfl, hy, rfl, rfl⟩
  | kEventMouseDown =>
    simp only [hk, hpos, if_false, Option.bind_eq_some] at hres
    obtain ⟨x, -, y, hy, h⟩ := hres
    simp only [Option.some.injEq, Prod.mk.injEq] at h
    obtain ⟨rfl, rfl, -⟩ := h
    exact ⟨_, y, rfl, rfl, hy, rfl, rfl⟩
  | kEventMouseUp =>
    simp only [hk, hpos, if_false, Option.bind_eq_some] at hres
    obtain ⟨x, -, y, hy, h⟩ := hres
    simp only [Option.some.injEq, Prod.mk.injEq] at h
    obtain ⟨rfl, rfl, -⟩ := h
    exact ⟨_, y, rfl, rfl, hy, rfl, rfl⟩

/-- A pointer event on the menu bar is rejected: the answer is false, nothing
is handed to `processEvent` and the handler is as before. -/
theorem handleMouseEvent_rejected (k : Constants) (sys : WindowSystem) (event : MouseEvent)
    (handler : AGLEventHandler) (hkind : event.kind ≠ MouseEventKind.other)
    (hpos : event.windowMouseLocation.y < (AGLEventHandler.menuHeight k sys : ℚ)) :
    AGLEventHandler._handleMouseEvent k sys event handler = some (false, none, handler) := by
  unfold AGLEventHandler._handleMouseEvent
  cases hk : event.kind with
  | other => exact absurd hk hkind
  | kEventMouseMoved => simp only [hpos, if_true]
  | kEventMouseDragged => simp only [hpos, if_true]
  | kEventMouseDown => simp only [hpos, if_true]
  | kEventMouseUp => simp only [hpos, if_true]

/-- C18. For every mouse motion, drag, press or release event that is handed
to the window: when the button state returned by `_getButtonState` is exactly
`PTR_BUTTON1`, the reported buttons are `PTR_BUTTON3` if the control key is
held, `PTR_BUTTON2` if the option key but not the control key is held, and
`PTR_BUTTON1` if neither is held; when the button state is anything else, the
reported buttons are the button state. -/
theorem C18_reported_buttons (k : Constants) (sys : WindowSystem) (event : MouseEvent)
    (handler : AGLEventHandler) (hkind : event.kind ≠ MouseEventKind.other)
    (r : Bool) (ev : AGLWindowEvent) (after : AGLEventHandler)
    (hres : AGLEventHandler._handleMouseEvent k sys event handler = some (r, some ev, after)) :
    (AGLEventHandler._getButtonState k sys.currentEventButtonState = k.PTR_BUTTON1 →
      event.keyModifiers &&& k.controlKey ≠ 0 → ev.pointer.buttons = k.PTR_BUTTON3) ∧
    (AGLEventHandler._getButtonState k sys.currentEventButtonState = k.PTR_BUTTON1 →
      event.keyModifiers &&& k.controlKey = 0 → event.keyModifiers &&& k.optionKey ≠ 0 →
      ev.pointer.buttons = k.PTR_BUTTON2) ∧
    (AGLEventHandler._getButtonState k sys.currentEventButtonState = k.PTR_BUTTON1 →
      event.keyModifiers &&& k.controlKey = 0 → event.keyModifiers &&& k.optionKey = 0 →
      ev.pointer.buttons = k.PTR_BUTTON1) ∧
    (AGLEventHandler._getButtonState k sys.currentEventButtonState ≠ k.PTR_BUTTON1 →
      ev.pointer.buttons = AGLEventHandler._getButtonState k sys.currentEventButtonState) := by
  have hb : ev.pointer.buttons = AGLEventHandler.modifierButtons k
      (AGLEventHandler._getButtonState k sys.currentEventButtonState) event.keyModifiers := by
    by_cases hpos : event.windowMouseLocation.y < (AGLEventHandler.menuHeight k sys : ℚ)
    · rw [handleMouseEvent_rejected k sys event handler hkind hpos] at hres
      simp at hres
    · obtain ⟨ev2, y, hfwd, -, -, -, hbut⟩ :=
        handleMouseEvent_forwarded k sys event handler hkind hpos r (some ev) after hres
      rw [Option.some.inj hfwd]
      exact hbut
  rw [hb]
  unfold AGLEventHandler.modifierButtons
  refine ⟨?_, ?_, ?_, ?_⟩
  · intro h1 hc
    rw [if_pos h1, if_pos hc]
  · intro h1 hc ho
    rw [if_pos h1, if_neg (by simp [hc]), if_pos ho]
  · intro h1 hc ho
    rw [if_pos h1, if_neg (by simp [hc]), if_neg (by simp [ho]), h1]
  · intro h1
    rw [if_neg h1]

/-- C18 for a press with the left button only and the control key held: the
reported buttons are `PTR_BUTTON3` (4). -/
theorem C18_reported_buttons_witness :
    AGLEventHandler._handleMouseEvent constants decorated
        (mouseAt MouseEventKind.kEventMouseDown) handlerAfterMotion =
      some (true, some (forwardedAt EventType.POINTER_BUTTON_PRESS 5 6),
        { _lastDX := 0, _lastDY := 0 }) ∧
    (forwardedAt EventType.POINTER_BUTTON_PRESS 5 6).pointer.buttons =
      constants.PTR_BUTTON3 :=
  ⟨by decide,
   (C18_reported_buttons constants decorated (mouseAt MouseEventKind.kEventMouseDown)
      handlerAfterMotion (by decide) true (forwardedAt EventType.POINTER_BUTTON_PRESS 5 6)
      { _lastDX := 0, _lastDY := 0 } (by decide)).1 (by decide) (by decide)⟩

/-! ## C19: the resize rectangle -/

/-- C19. The code at the failing input, and in general: for every window
event and every port rectangle, `_handleWindowEvent` reports `x = top` and
`y = left`, together with `w = right - left` and `h = bottom - top`; for the
port bounds with top 10, left 20, bottom 110 and right 220 it reports
`x = 10`, `y = 20`, `w = 200`, `h = 100`, where the claim has `x = 20` and
`y = 10`. -/
theorem C19_resize_rectangle :
    (∀ (sys : WindowSystem) (kind : WindowEventKind) (rect : Rect),
      (AGLEventHandler._handleWindowEvent sys kind rect).2.resize =
        { x := rect.top, y := rect.left, w := rect.right - rect.left,
          h := rect.bottom - rect.top }) ∧
    (AGLEventHandler._handleWindowEvent decorated WindowEventKind.kEventWindowBoundsChanged
        portBounds).2.resize = { x := 10, y := 20, w := 200, h := 100 } ∧
    portBounds.left = 20 ∧ portBounds.top = 10 := by
  refine ⟨fun sys kind rect => rfl, by decide, rfl, rfl⟩

end eq
